import Mathlib

set_option maxRecDepth 16384

/-!
# Verification of the kubesops secret reconciliation engine

This file gives a shallow embedding, in Lean 4, of the core of the
`kubesops` program (a Go CLI that reconciles local `.env` secret files
with Kubernetes secrets), and proves properties of that embedding.

Modelling conventions:

* Go `map[string]string` values are represented as association lists
  `List (String × String)`.  A Go map is unordered; wherever the Go code
  iterates over a map (`range`), the list order of the model stands for
  the iteration order that the Go runtime happens to produce, which for
  Go maps is **not** determined by the map's contents (Go randomizes map
  iteration order).  Functions that build maps from scratch keep keys
  unique via `mapInsert`, which mirrors Go's `m[k] = v` assignment
  (overwrite if present, append otherwise).
* Fallible Go functions (`(T, error)`) become `Except String T`, carrying
  the `fmt.Errorf` message text.
* `fmt.Printf` reporting output is modelled as a list of emitted lines,
  structured by which `Printf` shape produced them (`OutLine`).
* Go byte-indexed string operations are modelled on the character
  sequence of the string; for the ASCII delimiters involved (`#`, `=`,
  quotes) the two views agree.
* The JSON text layer (`encoding/json`) is modelled by an explicit
  `Json` tree together with an executable serializer and parser;
  `json.Marshal` of the `DockerConfig` struct and `json.Unmarshal` into
  it become tree-level encode/decode functions composed with that
  serializer/parser.
-/

/-! ## Entry maps (Go `map[string]string`) -/

/-- Lookup in a Go map, `v, ok := m[k]`. -/
def mapGet {α : Type} (m : List (String × α)) (k : String) : Option α :=
  (m.find? (fun p => p.1 = k)).map (fun p => p.2)

/-- Go map assignment `m[k] = v`: overwrite the existing entry for `k`,
or append a new one. -/
def mapInsert {α : Type} (m : List (String × α)) (k : String) (v : α) :
    List (String × α) :=
  match m with
  | [] => [(k, v)]
  | (k', v') :: rest =>
    if k' = k then (k, v) :: rest else (k', v') :: mapInsert rest k v

/-- The keys of an entry map. -/
def mapKeys (m : List (String × String)) : List String :=
  m.map (fun p => p.1)

/-- Keep the first occurrence of every string, tracking what has been seen. -/
def dedupKeysAux (seen : List String) : List String → List String
  | [] => []
  | k :: rest =>
    if seen.contains k then dedupKeysAux seen rest
    else k :: dedupKeysAux (k :: seen) rest

/-- Keep the first occurrence of every string (models collecting keys into a
`map[string]bool` set before sorting; the pre-sort order is irrelevant). -/
def dedupKeys (l : List String) : List String :=
  dedupKeysAux [] l

/-- Insert a string into an ascending sorted list (helper for `sortStrings`). -/
def insortStr (s : String) : List String → List String
  | [] => [s]
  | x :: xs => if s < x then s :: x :: xs else x :: insortStr s xs

/-- `sort.Strings`: sort ascending in byte order (UTF-8 byte order coincides
with code-point order, which is what Lean's `String` order compares). -/
def sortStrings : List String → List String
  | [] => []
  | x :: xs => insortStr x (sortStrings xs)

/-- The sorted union of the key sets of two entry maps: models the
`allKeys` set-collection plus `sort.Strings` step shared by the two
comparison functions and by `diffLocalVsLocal`. -/
def sortedUnionKeys (m1 m2 : List (String × String)) : List String :=
  sortStrings (dedupKeys (mapKeys m1 ++ mapKeys m2))

/-! ## Diff reporting (`handle_diff.go`) -/

/-- `truncateValue`: truncate to `maxLen` characters and append `"..."`. -/
def truncateValue (s : String) (maxLen : Nat) : String :=
  if s.length ≤ maxLen then s else s.take maxLen ++ "..."

/-- `formatValue`: render one side's value; a missing key displays as the
sentinel `missing`, otherwise the value bracketed, truncated to 10
characters unless verbose. -/
def formatValue (val : String) (present verbose : Bool) : String :=
  if !present then "missing"
  else if verbose then "[" ++ val ++ "]"
  else "[" ++ truncateValue val 10 ++ "]"

/-- One printed line of comparison output, tagged by which `Printf` shape
produced it: `key` for the bare key line (`"%s\n"` in `compareSecretsLocal`,
`"%s/%s\n"` in `compareSecretsRemote`), `val` for a value line
(`"  %s: %s\n"`). -/
inductive OutLine where
  | key (s : String)
  | val (label rendered : String)
deriving DecidableEq, Repr

/-- Whether the loop body of the comparison functions classifies key `k` as
changed: `!exists1 || !exists2 || (val1 != val2)` (with Go's zero value `""`
for a missing key). -/
def changedAt (data1 data2 : List (String × String)) (k : String) : Bool :=
  let v1 := mapGet data1 k
  let v2 := mapGet data2 k
  v1.isNone || v2.isNone || ((v1.getD "") ≠ (v2.getD ""))

/-- The lines printed by one iteration of the `compareSecretsLocal` loop:
the key is always printed; the two value lines only when the key differs. -/
def localKeyLines (ns1 ns2 : String) (data1 data2 : List (String × String))
    (verbose : Bool) (k : String) : List OutLine :=
  let v1 := mapGet data1 k
  let v2 := mapGet data2 k
  OutLine.key k ::
    (if changedAt data1 data2 k then
      [OutLine.val ns1 (formatValue (v1.getD "") v1.isSome verbose),
       OutLine.val ns2 (formatValue (v2.getD "") v2.isSome verbose)]
    else [])

/-- `compareSecretsLocal`: returns the number of differences found and the
report lines, iterating over the sorted union of keys. -/
def compareSecretsLocal (ns1 ns2 : String) (data1 data2 : List (String × String))
    (verbose : Bool) : Nat × List OutLine :=
  let keys := sortedUnionKeys data1 data2
  (keys.countP (fun k => changedAt data1 data2 k),
   keys.flatMap (localKeyLines ns1 ns2 data1 data2 verbose))

/-- The lines printed by one iteration of the `compareSecretsRemote` loop:
the key line is printed when `changed || verbose`; the two value lines
(labelled `remote` and `onsite`) only when changed. -/
def remoteKeyLines (secretName : String) (onsite remote : List (String × String))
    (verbose : Bool) (k : String) : List OutLine :=
  let ov := mapGet onsite k
  let rv := mapGet remote k
  let changed := changedAt onsite remote k
  (if changed || verbose then [OutLine.key (secretName ++ "/" ++ k)] else []) ++
    (if changed then
      [OutLine.val "remote" (formatValue (rv.getD "") rv.isSome verbose),
       OutLine.val "onsite" (formatValue (ov.getD "") ov.isSome verbose)]
    else [])

/-- `compareSecretsRemote`: returns the number of differences found and the
report lines, iterating over the sorted union of keys. -/
def compareSecretsRemote (secretName : String) (onsite remote : List (String × String))
    (verbose : Bool) : Nat × List OutLine :=
  let keys := sortedUnionKeys onsite remote
  (keys.countP (fun k => changedAt onsite remote k),
   keys.flatMap (remoteKeyLines secretName onsite remote verbose))

/-! ## Content parsing (`secret.go`) -/

/-- ASCII whitespace, the characters `strings.TrimSpace` and the regex
class `\s` agree on for the inputs of interest. -/
def isSpaceChar (c : Char) : Bool :=
  c = ' ' || c = '\t' || c = '\n' || c = '\r'

/-- `strings.TrimSpace`: drop leading and trailing whitespace.  (Defined on
the character list so it evaluates by kernel reduction.) -/
def strTrim (s : String) : String :=
  String.mk (((s.data.dropWhile isSpaceChar).reverse.dropWhile isSpaceChar).reverse)

/-- `strings.HasPrefix`. -/
def strStartsWith (s pre : String) : Bool :=
  pre.data.isPrefixOf s.data

/-- Drop the first `n` characters. -/
def strDrop (s : String) (n : Nat) : String :=
  String.mk (s.data.drop n)

/-- Skip leading whitespace (the regex class `\s`). -/
def skipWs (s : String) : String :=
  String.mk (s.data.dropWhile isSpaceChar)

/-- `extractTypeFromComment`: match the line against the anchored regex
`^#\s*type\s*=\s*(.+)` and return the trimmed first capture group, or `""`
when the regex does not match or the capture trims to empty.  Because `\s*`
after `=` is greedy and `.` also matches whitespace, a match exists exactly
when at least one character follows the `=`, and the trimmed capture equals
the trimmed remainder after the `=`. -/
def extractTypeFromComment (line : String) : String :=
  if strStartsWith line "#" then
    let r1 := skipWs (strDrop line 1)
    if strStartsWith r1 "type" then
      let r2 := skipWs (strDrop r1 4)
      if strStartsWith r2 "=" then
        let r3 := strDrop r2 1
        if r3 = "" then "" else strTrim r3
      else ""
    else ""
  else ""

/-- Helper for `splitFirstEq`: walk the characters looking for `=`. -/
def splitFirstEqAux (acc : List Char) : List Char → Option (String × String)
  | [] => none
  | c :: rest =>
    if c = '=' then some (String.mk acc.reverse, String.mk rest)
    else splitFirstEqAux (c :: acc) rest

/-- `strings.SplitN(line, "=", 2)`: split at the first `=` if any;
`none` models the length-1 result when the line holds no `=`. -/
def splitFirstEq (s : String) : Option (String × String) :=
  splitFirstEqAux [] s.data

/-- The quote-removal step: if the value has length at least 2 and both ends
are the same straight double or single quote, strip exactly one layer. -/
def stripQuotes (v : String) : String :=
  if 2 ≤ v.data.length ∧
      ((v.data.head? = some '"' ∧ v.data.getLast? = some '"') ∨
        (v.data.head? = some '\'' ∧ v.data.getLast? = some '\'')) then
    String.mk ((v.data.drop 1).dropLast)
  else v

/-- `mapSecretType`: the fixed alias table from type alias to canonical
Kubernetes type name; unknown aliases pass through unchanged. -/
def mapSecretType (secretType : String) : String :=
  match secretType with
  | "docker-registry" => "kubernetes.io/dockerconfigjson"
  | "tls" => "kubernetes.io/tls"
  | "basic-auth" => "kubernetes.io/basic-auth"
  | "ssh-auth" => "kubernetes.io/ssh-auth"
  | "generic" => "Opaque"
  | "opaque" => "Opaque"
  | "" => "Opaque"
  | _ => secretType

-- Decidable equality for `Except`, so concrete parses can be checked by
-- `decide`.
deriving instance DecidableEq for Except

/-- What one iteration of the `parseSecretContent` scan loop does with a raw
line, after `strings.TrimSpace`: consume a first-line type directive, skip a
blank/comment line, produce a key/value entry, or fail the parse. -/
inductive LineAction where
  | typeDecl (t : String)
  | skip
  | entry (k v : String)
  | badLine (lineNum : Nat) (content : String)
deriving DecidableEq, Repr

/-- Classify a raw line at 1-based line number `lineNum`, mirroring the loop
body of `parseSecretContent`. -/
def classifyLine (lineNum : Nat) (raw : String) : LineAction :=
  let line := strTrim raw
  if lineNum = 1 ∧ strStartsWith line "#" ∧ extractTypeFromComment line ≠ "" then
    .typeDecl (extractTypeFromComment line)
  else if line = "" ∨ strStartsWith line "#" then
    .skip
  else
    match splitFirstEq line with
    | none => .badLine lineNum line
    | some (k, v) => .entry (strTrim k) (stripQuotes (strTrim v))

/-- The scan loop of `parseSecretContent`: thread the line number, the
accumulated data map and the current secret type through the lines. -/
def parseSecretLines :
    List String → Nat → List (String × String) → String →
      Except String (List (String × String) × String)
  | [], _, data, secretType => .ok (data, secretType)
  | raw :: rest, lineNum, data, secretType =>
    match classifyLine lineNum raw with
    | .typeDecl t => parseSecretLines rest (lineNum + 1) data t
    | .skip => parseSecretLines rest (lineNum + 1) data secretType
    | .entry k v => parseSecretLines rest (lineNum + 1) (mapInsert data k v) secretType
    | .badLine n content =>
      .error ("invalid line " ++ toString n ++ ": " ++ content ++
        " (expected KEY=VALUE format)")

/-- `parseSecretContent`: parse the content (given as its list of lines, the
`bufio.Scanner` boundary), starting from an empty map and the default type
`"Opaque"`, then map the type through the alias table. -/
def parseSecretContent (lines : List String) :
    Except String (List (String × String) × String) :=
  match parseSecretLines lines 1 [] "Opaque" with
  | .error e => .error e
  | .ok (data, secretType) => .ok (data, mapSecretType secretType)

/-! ## JSON text layer (the `encoding/json` boundary)

`json.Marshal` of the fixed `DockerConfig` shape is modelled by a direct
deterministic serializer (struct fields in declaration order, `omitempty`
on the email, map keys sorted, compact output, HTML-escaping on);
`json.Unmarshal` is modelled by a generic JSON text parser into a `Json`
tree followed by a decoder into the struct. -/

/-- A parsed JSON document.  Object fields are kept in document order;
numbers are kept as their lexeme (never inspected by this program). -/
inductive Json where
  | null
  | bool (b : Bool)
  | num (raw : String)
  | str (s : String)
  | arr (elems : List Json)
  | obj (fields : List (String × Json))

/-- Lowercase hex digit, as Go's JSON encoder emits in `\u00xx` escapes. -/
def hexDigit (n : Nat) : Char :=
  "0123456789abcdef".data.getD n '0'

/-- How Go's JSON encoder (with its default HTML escaping) renders one
character inside a string literal. -/
def escapeJsonChar (c : Char) : List Char :=
  if c = '"' then ['\\', '"']
  else if c = '\\' then ['\\', '\\']
  else if c = '\n' then ['\\', 'n']
  else if c = '\r' then ['\\', 'r']
  else if c = '\t' then ['\\', 't']
  else if c = '<' then ['\\', 'u', '0', '0', '3', 'c']
  else if c = '>' then ['\\', 'u', '0', '0', '3', 'e']
  else if c = '&' then ['\\', 'u', '0', '0', '2', '6']
  else if c.toNat < 32 then ['\\', 'u', '0', '0', hexDigit (c.toNat / 16), hexDigit (c.toNat % 16)]
  else [c]

/-- Escape a whole string for embedding in JSON output. -/
def escapeJsonString (s : String) : String :=
  String.mk (s.data.flatMap escapeJsonChar)

/-- Render a JSON string literal, quotes included. -/
def renderJsonStr (s : String) : String :=
  "\"" ++ escapeJsonString s ++ "\""

/-- `strings.Join`-style intercalation (defined recursively so it evaluates
by kernel reduction). -/
def strIntercalate (sep : String) : List String → String
  | [] => ""
  | [x] => x
  | x :: xs => x ++ sep ++ strIntercalate sep xs

/-- Numeric value of a hex digit, for `\uXXXX` escapes. -/
def hexVal (c : Char) : Option Nat :=
  if '0' ≤ c ∧ c ≤ '9' then some (c.toNat - '0'.toNat)
  else if 'a' ≤ c ∧ c ≤ 'f' then some (c.toNat - 'a'.toNat + 10)
  else if 'A' ≤ c ∧ c ≤ 'F' then some (c.toNat - 'A'.toNat + 10)
  else none

/-- Prepend a decoded character to the result of parsing the rest of a
string literal. -/
def consRes (c : Char) : Except String (List Char × List Char) →
    Except String (List Char × List Char)
  | .ok (s, r) => .ok (c :: s, r)
  | .error msg => .error msg

/-- Parse the body of a JSON string literal (the opening quote already
consumed), returning the decoded characters and the rest of the input. -/
def parseJString : List Char → Except String (List Char × List Char)
  | [] => .error "unexpected end of JSON input"
  | c :: rest =>
    if c = '"' then .ok ([], rest)
    else if c = '\\' then
      match rest with
      | [] => .error "unexpected end of JSON input"
      | e :: rest2 =>
        if e = '"' then consRes '"' (parseJString rest2)
        else if e = '\\' then consRes '\\' (parseJString rest2)
        else if e = '/' then consRes '/' (parseJString rest2)
        else if e = 'b' then consRes (Char.ofNat 8) (parseJString rest2)
        else if e = 'f' then consRes (Char.ofNat 12) (parseJString rest2)
        else if e = 'n' then consRes '\n' (parseJString rest2)
        else if e = 'r' then consRes '\r' (parseJString rest2)
        else if e = 't' then consRes '\t' (parseJString rest2)
        else if e = 'u' then
          match rest2 with
          | h1 :: h2 :: h3 :: h4 :: rest3 =>
            match hexVal h1, hexVal h2, hexVal h3, hexVal h4 with
            | some a, some b, some c2, some d =>
              consRes (Char.ofNat (a * 4096 + b * 256 + c2 * 16 + d)) (parseJString rest3)
            | _, _, _, _ => .error "invalid character in string escape code"
          | _ => .error "unexpected end of JSON input"
        else .error "invalid character in string escape code"
    else consRes c (parseJString rest)

/-- Characters a JSON number lexeme may contain. -/
def isNumChar (c : Char) : Bool :=
  c.isDigit || c = '-' || c = '+' || c = '.' || c = 'e' || c = 'E'

mutual

/-- Parse one JSON value.  The fuel bounds the recursion depth; callers pass
one more than the input length, which any well-formed document stays under. -/
def parseJValue : Nat → List Char → Except String (Json × List Char)
  | 0, _ => .error "exceeded max depth"
  | fuel + 1, cs =>
    match cs.dropWhile isSpaceChar with
    | [] => .error "unexpected end of JSON input"
    | c :: rest =>
      if c = '\x7b' then
        match rest.dropWhile isSpaceChar with
        | '\x7d' :: rest2 => .ok (Json.obj [], rest2)
        | _ =>
          match parseJMembers fuel rest with
          | .ok (fields, rest2) => .ok (Json.obj fields, rest2)
          | .error e => .error e
      else if c = '[' then
        match rest.dropWhile isSpaceChar with
        | ']' :: rest2 => .ok (Json.arr [], rest2)
        | _ =>
          match parseJElems fuel rest with
          | .ok (elems, rest2) => .ok (Json.arr elems, rest2)
          | .error e => .error e
      else if c = '"' then
        match parseJString rest with
        | .ok (s, rest2) => .ok (Json.str (String.mk s), rest2)
        | .error e => .error e
      else if c = 't' then
        match rest with
        | 'r' :: 'u' :: 'e' :: rest2 => .ok (Json.bool true, rest2)
        | _ => .error "invalid character in literal"
      else if c = 'f' then
        match rest with
        | 'a' :: 'l' :: 's' :: 'e' :: rest2 => .ok (Json.bool false, rest2)
        | _ => .error "invalid character in literal"
      else if c = 'n' then
        match rest with
        | 'u' :: 'l' :: 'l' :: rest2 => .ok (Json.null, rest2)
        | _ => .error "invalid character in literal"
      else if c = '-' || c.isDigit then
        .ok (Json.num (String.mk (c :: rest.takeWhile isNumChar)), rest.dropWhile isNumChar)
      else .error "invalid character looking for beginning of value"

/-- Parse the members of a non-empty JSON object (the opening brace already
consumed), up to and including the closing brace. -/
def parseJMembers : Nat → List Char → Except String (List (String × Json) × List Char)
  | 0, _ => .error "exceeded max depth"
  | fuel + 1, cs =>
    match cs.dropWhile isSpaceChar with
    | '"' :: rest =>
      match parseJString rest with
      | .error e => .error e
      | .ok (key, rest2) =>
        match rest2.dropWhile isSpaceChar with
        | ':' :: rest3 =>
          match parseJValue fuel rest3 with
          | .error e => .error e
          | .ok (v, rest4) =>
            match rest4.dropWhile isSpaceChar with
            | ',' :: rest5 =>
              match parseJMembers fuel rest5 with
              | .ok (fields, rest6) => .ok ((String.mk key, v) :: fields, rest6)
              | .error e => .error e
            | '\x7d' :: rest5 => .ok ([(String.mk key, v)], rest5)
            | _ => .error "invalid character after object key:value pair"
        | _ => .error "invalid character after object key"
    | _ => .error "invalid character looking for beginning of object key string"

/-- Parse the elements of a non-empty JSON array (the opening bracket
already consumed), up to and including the closing bracket. -/
def parseJElems : Nat → List Char → Except String (List Json × List Char)
  | 0, _ => .error "exceeded max depth"
  | fuel + 1, cs =>
    match parseJValue fuel cs with
    | .error e => .error e
    | .ok (v, rest) =>
      match rest.dropWhile isSpaceChar with
      | ',' :: rest2 =>
        match parseJElems fuel rest2 with
        | .ok (elems, rest3) => .ok (v :: elems, rest3)
        | .error e => .error e
      | ']' :: rest2 => .ok ([v], rest2)
      | _ => .error "invalid character after array element"

end

/-- Parse a whole JSON document, rejecting trailing garbage (as
`json.Unmarshal` does). -/
def parseJsonText (s : String) : Except String Json :=
  match parseJValue (s.data.length + 1) s.data with
  | .error e => .error e
  | .ok (j, rest) =>
    if rest.dropWhile isSpaceChar = [] then .ok j
    else .error "invalid character after top-level value"

/-! ## The docker-registry codec (`docker_registry.go`) -/

/-- The base64 standard alphabet. -/
def base64Alphabet : List Char :=
  "ABCDEFGHIJKLMNOPQRSTUVWXYZabcdefghijklmnopqrstuvwxyz0123456789+/".data

/-- The base64 character for a 6-bit value. -/
def base64Char (n : Nat) : Char :=
  base64Alphabet.getD n 'A'

/-- Encode bytes in groups of three, with `=` padding
(`base64.StdEncoding`). -/
def base64Chunks : List Nat → List Char
  | [] => []
  | [b0] => [base64Char (b0 / 4), base64Char (b0 % 4 * 16), '=', '=']
  | [b0, b1] =>
    [base64Char (b0 / 4), base64Char (b0 % 4 * 16 + b1 / 16), base64Char (b1 % 16 * 4), '=']
  | b0 :: b1 :: b2 :: rest =>
    base64Char (b0 / 4) :: base64Char (b0 % 4 * 16 + b1 / 16) ::
      base64Char (b1 % 16 * 4 + b2 / 64) :: base64Char (b2 % 64) :: base64Chunks rest

/-- The UTF-8 bytes of one character. -/
def charUtf8 (c : Char) : List Nat :=
  let n := c.toNat
  if n < 128 then [n]
  else if n < 2048 then [192 + n / 64, 128 + n % 64]
  else if n < 65536 then [224 + n / 4096, 128 + n / 64 % 64, 128 + n % 64]
  else [240 + n / 262144, 128 + n / 4096 % 64, 128 + n / 64 % 64, 128 + n % 64]

/-- The UTF-8 bytes of a string (`[]byte(s)`). -/
def utf8Bytes (s : String) : List Nat :=
  s.data.flatMap charUtf8

/-- `base64.StdEncoding.EncodeToString([]byte(s))`. -/
def base64StdEncode (s : String) : String :=
  String.mk (base64Chunks (utf8Bytes s))

/-- The `DockerAuth` struct: authentication for a single registry. -/
structure DockerAuth where
  Username : String
  Password : String
  Email : String
  Auth : String
deriving DecidableEq, Repr

/-- The `DockerConfig` struct.  `Auths` is a Go `map[string]DockerAuth`,
represented as its entry list; anywhere the list order is consumed it
stands for Go's (randomized) map iteration order. -/
structure DockerConfig where
  Auths : List (String × DockerAuth)
deriving DecidableEq, Repr

/-- The field list of the JSON object `json.Marshal` produces for a
`DockerAuth`: struct fields in declaration order, the email under
`omitempty`. -/
def dockerAuthFields (a : DockerAuth) : List (String × String) :=
  [("username", a.Username), ("password", a.Password)] ++
    (if a.Email = "" then [] else [("email", a.Email)]) ++
    [("auth", a.Auth)]

/-- Render a JSON object all of whose values are strings. -/
def marshalStrObj (fields : List (String × String)) : String :=
  "\x7b" ++
    strIntercalate "," (fields.map (fun p => renderJsonStr p.1 ++ ":" ++ renderJsonStr p.2)) ++
    "\x7d"

/-- `json.Marshal` of a `DockerAuth` value. -/
def DockerAuth.marshal (a : DockerAuth) : String :=
  marshalStrObj (dockerAuthFields a)

/-- Insert into a sorted key/value list by key (helper for the sorted map
keys in `json.Marshal` output). -/
def insortPair {α : Type} (p : String × α) : List (String × α) → List (String × α)
  | [] => [p]
  | q :: qs => if p.1 < q.1 then p :: q :: qs else q :: insortPair p qs

/-- Sort a key/value list ascending by key (`json.Marshal` sorts map keys). -/
def sortPairsByKey {α : Type} : List (String × α) → List (String × α)
  | [] => []
  | p :: ps => insortPair p (sortPairsByKey ps)

/-- `json.Marshal` of a `DockerConfig` value: one `auths` field holding the
map rendered with sorted keys. -/
def DockerConfig.marshal (c : DockerConfig) : String :=
  "\x7b\"auths\":\x7b" ++
    strIntercalate ","
      ((sortPairsByKey c.Auths).map (fun p => renderJsonStr p.1 ++ ":" ++ p.2.marshal)) ++
    "\x7d\x7d"

/-- Look a field up in a decoded JSON object the way `json.Unmarshal` fills
struct fields: for a duplicated key the last occurrence wins. -/
def objGet (fields : List (String × Json)) (k : String) : Option Json :=
  (fields.reverse.find? (fun p => p.1 = k)).map (fun p => p.2)

/-- Decode one string-typed struct field: an absent field or JSON `null`
leaves the zero value `""`; any non-string value is an unmarshal error. -/
def decodeStringField (fields : List (String × Json)) (k : String) : Except String String :=
  match objGet fields k with
  | none => .ok ""
  | some (Json.str s) => .ok s
  | some Json.null => .ok ""
  | some _ => .error ("cannot unmarshal value into field " ++ k ++ " of type string")

/-- `json.Unmarshal` of one `auths` entry into a `DockerAuth`. -/
def decodeDockerAuth (j : Json) : Except String DockerAuth :=
  match j with
  | Json.obj fields =>
    match decodeStringField fields "username" with
    | .error e => .error e
    | .ok u =>
      match decodeStringField fields "password" with
      | .error e => .error e
      | .ok p =>
        match decodeStringField fields "email" with
        | .error e => .error e
        | .ok em =>
          match decodeStringField fields "auth" with
          | .error e => .error e
          | .ok a => .ok ⟨u, p, em, a⟩
  | Json.null => .ok ⟨"", "", "", ""⟩
  | _ => .error "cannot unmarshal value into DockerAuth"

/-- Decode the entries of the `auths` JSON object into map entries,
performing `m[k] = v` per member in document order (so a duplicated key's
last occurrence wins, as `json.Unmarshal` into a map does). -/
def decodeAuthEntriesAux (acc : List (String × DockerAuth)) :
    List (String × Json) → Except String (List (String × DockerAuth))
  | [] => .ok acc
  | (k, v) :: rest =>
    match decodeDockerAuth v with
    | .error e => .error e
    | .ok a => decodeAuthEntriesAux (mapInsert acc k a) rest

/-- Decode the `auths` JSON object into the `Auths` map. -/
def decodeAuthEntries (fields : List (String × Json)) :
    Except String (List (String × DockerAuth)) :=
  decodeAuthEntriesAux [] fields

/-- `json.Unmarshal` of a whole document into a `DockerConfig`: the
top level must be an object (or `null`, leaving the zero value); its
`auths` field, when present, must decode as a map of `DockerAuth`. -/
def decodeDockerConfig (j : Json) : Except String DockerConfig :=
  match j with
  | Json.obj fields =>
    match objGet fields "auths" with
    | none => .ok ⟨[]⟩
    | some Json.null => .ok ⟨[]⟩
    | some (Json.obj auths) =>
      match decodeAuthEntries auths with
      | .error e => .error e
      | .ok l => .ok ⟨l⟩
    | some _ => .error "cannot unmarshal value into field auths"
  | Json.null => .ok ⟨[]⟩
  | _ => .error "cannot unmarshal value into DockerConfig"

/-- The validation and composition stage of `BuildDockerConfigJSON`,
up to (but not including) the `json.Marshal` call. -/
def buildDockerConfig (values : List (String × String)) : Except String DockerConfig :=
  let serverOpt := mapGet values "docker-server"
  if serverOpt.isNone || serverOpt.getD "" = "" then
    .error "docker-server is required for docker-registry secrets"
  else
    let usernameOpt := mapGet values "docker-username"
    if usernameOpt.isNone || usernameOpt.getD "" = "" then
      .error "docker-username is required for docker-registry secrets"
    else
      let passwordOpt := mapGet values "docker-password"
      if passwordOpt.isNone || passwordOpt.getD "" = "" then
        .error "docker-password is required for docker-registry secrets"
      else
        let server := serverOpt.getD ""
        let username := usernameOpt.getD ""
        let password := passwordOpt.getD ""
        let email := (mapGet values "docker-email").getD ""
        let auth := base64StdEncode (username ++ ":" ++ password)
        .ok ⟨[(server, ⟨username, password, email, auth⟩)]⟩

/-- `BuildDockerConfigJSON`: build a `.dockerconfigjson` document from the
`docker-*` keys.  (`json.Marshal` cannot fail on this value, so the
marshalling error branch of the source is unreachable.) -/
def BuildDockerConfigJSON (values : List (String × String)) : Except String String :=
  match buildDockerConfig values with
  | .error e => .error e
  | .ok config => .ok config.marshal

/-- The extraction stage of `ParseDockerConfigJSON`, after `json.Unmarshal`
has produced the `DockerConfig`: require a non-empty `auths`, take the
first registry the map iteration yields, and rebuild the `docker-*` keys
(the email only when non-empty). -/
def parseDockerConfig (config : DockerConfig) : Except String (List (String × String)) :=
  match config.Auths with
  | [] => .error "no auths found in docker config"
  | (server, auth) :: _ =>
    let result := [("docker-server", server), ("docker-username", auth.Username),
      ("docker-password", auth.Password)]
    .ok (if auth.Email ≠ "" then result ++ [("docker-email", auth.Email)] else result)

/-- `ParseDockerConfigJSON`: parse a `.dockerconfigjson` document and
extract the `docker-*` keys. -/
def ParseDockerConfigJSON (jsonData : String) : Except String (List (String × String)) :=
  match parseJsonText jsonData with
  | .error e => .error ("failed to unmarshal docker config: " ++ e)
  | .ok j =>
    match decodeDockerConfig j with
    | .error e => .error ("failed to unmarshal docker config: " ++ e)
    | .ok config => parseDockerConfig config

/-! ## Secrets and the Kubernetes conversions (`secret.go`) -/

/-- The `Secret` struct.  (`Typ` stands for the Go field `Type`, which is a
reserved word in Lean.) -/
structure Secret where
  Namespace : String
  Name : String
  Typ : String
  Data : List (String × String)
deriving DecidableEq, Repr

/-- `Secret.ToKubernetesData`: canonical entries to wire form; for
docker-registry the composite `.dockerconfigjson` value, otherwise the
identity. -/
def Secret.ToKubernetesData (s : Secret) : Except String (List (String × String)) :=
  if s.Typ = "kubernetes.io/dockerconfigjson" then
    match BuildDockerConfigJSON s.Data with
    | .error e => .error ("failed to build docker config: " ++ e)
    | .ok jsonData => .ok [(".dockerconfigjson", jsonData)]
  else .ok s.Data

/-- `FromKubernetesData`: wire form to canonical entries; for
docker-registry the `.dockerconfigjson` value must be present and parse,
otherwise the identity. -/
def FromKubernetesData (secretType : String) (k8sData : List (String × String)) :
    Except String (List (String × String)) :=
  if secretType = "kubernetes.io/dockerconfigjson" then
    match mapGet k8sData ".dockerconfigjson" with
    | some dockerConfigJSON => ParseDockerConfigJSON dockerConfigJSON
    | none => .error "docker-registry secret missing .dockerconfigjson key"
  else .ok k8sData

/-! ## The synchronization driver (`handle_upload.go` and `main.go`)

The store client is an external collaborator: `secretRead` and
`secretWrite` are passed in as functions, and the result of
`LoadSecretsFromPath` (a filesystem walk) is passed in as a value. -/

/-- `FromOnsiteSecret`: the local secret's entries (never fails). -/
def FromOnsiteSecret (secret : Secret) : Except String (List (String × String)) :=
  .ok secret.Data

/-- `FromRemoteSecret`: read the remote wire data and convert it to
canonical form. -/
def FromRemoteSecret (secretRead : String → String → Except String (List (String × String)))
    (nspace name secretType : String) : Except String (List (String × String)) :=
  match secretRead nspace name with
  | .error e => .error e
  | .ok k8sData =>
    match FromKubernetesData secretType k8sData with
    | .error e => .error ("conversion failed: " ++ e)
    | .ok remoteData => .ok remoteData

/-- The per-secret difference count computed inside the `upload` loop: a
failed remote fetch prints `secret ... is missing` and counts as one
difference; otherwise the count from `compareSecretsRemote`. -/
def secretDifferences (secretRead : String → String → Except String (List (String × String)))
    (secret : Secret) (onsiteMap : List (String × String)) (verbose : Bool) : Nat :=
  match FromRemoteSecret secretRead secret.Namespace secret.Name secret.Typ with
  | .error _ => 1
  | .ok remoteMap =>
    (compareSecretsRemote (secret.Namespace ++ "/" ++ secret.Name) onsiteMap remoteMap verbose).1

/-- What one iteration of the `upload` loop contributes: the difference
count it measured, how many errors it recorded, and whether it invoked
`secretWrite`. -/
structure SecretOutcome where
  differences : Nat
  errs : Nat
  wroteCalled : Bool
deriving DecidableEq, Repr

/-- One iteration of the `upload` loop over one secret: measure the
differences, then attempt the write when `force || (differences > 0 && doit)`
and, inside that, only when `doit`; a conversion or write failure records an
error and moves on. -/
def processSecret (secretRead : String → String → Except String (List (String × String)))
    (secretWrite : String → String → String → List (String × String) → Except String Unit)
    (secret : Secret) (force doit verbose : Bool) : SecretOutcome :=
  match FromOnsiteSecret secret with
  | .error _ => ⟨0, 1, false⟩
  | .ok onsiteMap =>
    let differences := secretDifferences secretRead secret onsiteMap verbose
    if force || (decide (0 < differences) && doit) then
      if doit then
        match secret.ToKubernetesData with
        | .error _ => ⟨differences, 1, false⟩
        | .ok k8sData =>
          match secretWrite secret.Namespace secret.Name secret.Typ k8sData with
          | .error _ => ⟨differences, 1, true⟩
          | .ok _ => ⟨differences, 0, true⟩
      else ⟨differences, 0, false⟩
    else ⟨differences, 0, false⟩

/-- The batch summary `upload` prints at the end: `secrets changed`,
`keys changed`, and the number of recorded errors. -/
structure UploadSummary where
  secretsChanged : Nat
  keysChanged : Nat
  errs : Nat
deriving DecidableEq, Repr

/-- `upload`: load the secrets (a load failure aborts the whole call),
process each one in order, and return the summary.  Per-secret errors are
only counted in the summary; the function still returns successfully. -/
def upload (secretRead : String → String → Except String (List (String × String)))
    (secretWrite : String → String → String → List (String × String) → Except String Unit)
    (loadResult : Except String (List Secret)) (force doit verbose : Bool) :
    Except String UploadSummary :=
  match loadResult with
  | .error e => .error ("failed to load secrets: " ++ e)
  | .ok secrets =>
    let outcomes := secrets.map (fun s => processSecret secretRead secretWrite s force doit verbose)
    .ok { secretsChanged := outcomes.countP (fun o => decide (0 < o.differences))
        , keysChanged := (outcomes.map (fun o => o.differences)).sum
        , errs := (outcomes.map (fun o => o.errs)).sum }

/-- `handleUpload` just forwards to `upload`. -/
def handleUpload (secretRead : String → String → Except String (List (String × String)))
    (secretWrite : String → String → String → List (String × String) → Except String Unit)
    (loadResult : Except String (List Secret)) (force doit verbose : Bool) :
    Except String UploadSummary :=
  upload secretRead secretWrite loadResult force doit verbose

/-- The commands `main` accepts. -/
def validCommand (command : String) : Bool :=
  command = "upload" || command = "download" || command = "diff" || command = "manifest"

/-- The exit code of `main`: 1 for an invalid command; otherwise dispatch,
exiting 1 exactly when the handler returns an error and 0 otherwise.  The
`download`, `diff` and `manifest` handler results are abstract inputs. -/
def mainExitCode (command : String)
    (secretRead : String → String → Except String (List (String × String)))
    (secretWrite : String → String → String → List (String × String) → Except String Unit)
    (loadResult : Except String (List Secret)) (force doit verbose : Bool)
    (downloadResult diffResult manifestResult : Except String Unit) : Nat :=
  if !validCommand command then 1
  else if command = "upload" then
    match handleUpload secretRead secretWrite loadResult force doit verbose with
    | .error _ => 1
    | .ok _ => 0
  else if command = "download" then
    match downloadResult with
    | .error _ => 1
    | .ok _ => 0
  else if command = "diff" then
    match diffResult with
    | .error _ => 1
    | .ok _ => 0
  else
    match manifestResult with
    | .error _ => 1
    | .ok _ => 0

/-! ## Derived observations used by the statements below -/

/-- Whether a report line is a value line. -/
def OutLine.isVal : OutLine → Bool
  | .key _ => false
  | .val _ _ => true

/-- The first line, scanning from 1-based line number `n`, that the parse
loop rejects (no `=` in a non-blank, non-comment line), with its trimmed
content. -/
def firstBadFrom : Nat → List String → Option (Nat × String)
  | _, [] => none
  | n, raw :: rest =>
    match classifyLine n raw with
    | .badLine m content => some (m, content)
    | _ => firstBadFrom (n + 1) rest

/-- The parsed value of the last line, scanning from 1-based line number
`n`, that produces an entry for key `k`. -/
def lastEntryFrom (k : String) : Nat → List String → Option String
  | _, [] => none
  | n, raw :: rest =>
    match lastEntryFrom k (n + 1) rest with
    | some v => some v
    | none =>
      match classifyLine n raw with
      | .entry k' v => if k' = k then some v else none
      | _ => none

/-! ## Theorems -/

example : parseSecretContent ["# type=docker-registry", "a=1", "", "# c", "b = 2"] =
    .ok ([("a", "1"), ("b", "2")], "kubernetes.io/dockerconfigjson") := by decide

example : parseSecretContent ["a=1=2"] = .ok ([("a", "1=2")], "Opaque") := by decide

example : parseSecretContent ["a=1", "nodelimiter"] =
    .error "invalid line 2: nodelimiter (expected KEY=VALUE format)" := by decide

example : parseSecretContent ["a=1", "a=2"] = .ok ([("a", "2")], "Opaque") := by decide

example : parseSecretContent ["x='q u o t e d'"] = .ok ([("x", "q u o t e d")], "Opaque") := by decide

example : parseSecretContent ["", "# type=tls"] = .ok ([], "Opaque") := by decide

example : parseJsonText "\x7b\"a\":\"b\\nc\", \"d\": [1,true,null]\x7d" =
    .ok (Json.obj [("a", Json.str "b\nc"), ("d", Json.arr [Json.num "1", Json.bool true, Json.null])]) := by
  rfl

example : base64StdEncode "testuser:testpass" = "dGVzdHVzZXI6dGVzdHBhc3M=" := by decide

example : BuildDockerConfigJSON
    [("docker-server", "https://ghcr.io"), ("docker-username", "testuser"),
     ("docker-password", "testpass"), ("docker-email", "test@example.com")] =
    .ok "\x7b\"auths\":\x7b\"https://ghcr.io\":\x7b\"username\":\"testuser\",\"password\":\"testpass\",\"email\":\"test@example.com\",\"auth\":\"dGVzdHVzZXI6dGVzdHBhc3M=\"\x7d\x7d\x7d" := by
  rfl

example : ParseDockerConfigJSON
    "\x7b\"auths\":\x7b\"https://ghcr.io\":\x7b\"username\":\"testuser\",\"password\":\"testpass\",\"email\":\"test@example.com\",\"auth\":\"dGVzdHVzZXI6dGVzdHBhc3M=\"\x7d\x7d\x7d" =
    .ok [("docker-server", "https://ghcr.io"), ("docker-username", "testuser"),
      ("docker-password", "testpass"), ("docker-email", "test@example.com")] := by
  rfl

example : ParseDockerConfigJSON "invalid json" =
    .error "failed to unmarshal docker config: invalid character looking for beginning of value" := by rfl

example : ParseDockerConfigJSON "\x7b\"auths\": \x7b\x7d\x7d" =
    .error "no auths found in docker config" := by rfl

example : BuildDockerConfigJSON [("docker-username", "u"), ("docker-password", "p")] =
    .error "docker-server is required for docker-registry secrets" := by rfl

/-- Helper: the differences count a secret's loop iteration reports does not
depend on the write phase. -/
theorem processSecret_differences
    (rd : String → String → Except String (List (String × String)))
    (wr : String → String → String → List (String × String) → Except String Unit)
    (s : Secret) (force doit verbose : Bool) :
    (processSecret rd wr s force doit verbose).differences =
      secretDifferences rd s s.Data verbose := by
  unfold processSecret FromOnsiteSecret
  by_cases hd : 0 < secretDifferences rd s s.Data verbose <;>
    cases force <;> cases doit <;>
      cases h : s.ToKubernetesData <;>
        simp [h, hd] <;>
          (try (cases hw : wr s.Namespace s.Name s.Typ _ <;> simp [hw]))

/-- C1 (amended): the synchronization driver invokes the store write for a
secret exactly when the `doit` flag is set, the `force` flag is set or at
least one difference was detected, and the canonical-to-wire conversion
succeeds.  In particular, `force` without `doit` never writes: the outer
`force || (differences > 0 && doit)` guard is followed by an inner
`if doit` that gates the actual upload. -/
theorem upload_write_gating
    (rd : String → String → Except String (List (String × String)))
    (wr : String → String → String → List (String × String) → Except String Unit)
    (s : Secret) (force doit verbose : Bool) :
    (processSecret rd wr s force doit verbose).wroteCalled =
      (doit && (force || decide (0 < secretDifferences rd s s.Data verbose)) &&
        s.ToKubernetesData.isOk) := by
  unfold processSecret FromOnsiteSecret
  by_cases hd : 0 < secretDifferences rd s s.Data verbose <;>
    cases force <;> cases doit <;>
      cases h : s.ToKubernetesData <;>
        simp [h, hd, Except.isOk, Except.toBool] <;>
          (try (cases hw : wr s.Namespace s.Name s.Typ _ <;> simp [hw]))

/-- C1 counterexample: with the force flag set but `doit` unset, a secret
with a detected difference is still not written, contradicting the claim
that force writes unconditionally regardless of the commit flag. -/
theorem force_without_doit_never_writes :
    (processSecret (fun _ _ => .error "not found") (fun _ _ _ _ => .ok ())
      ⟨"infra", "db", "Opaque", [("k", "v")]⟩ true false false).wroteCalled = false ∧
    0 < (processSecret (fun _ _ => .error "not found") (fun _ _ _ _ => .ok ())
      ⟨"infra", "db", "Opaque", [("k", "v")]⟩ true false false).differences := by
  decide

/-- C2 (amended): when the remote fetch for a secret fails, the upload loop
counts exactly one difference for that secret (flagged at the secret level),
regardless of how many local keys it has, and a batch of that one secret
reports one changed secret and one changed key. -/
theorem missing_remote_counts_one
    (rd : String → String → Except String (List (String × String)))
    (wr : String → String → String → List (String × String) → Except String Unit)
    (s : Secret) (force doit verbose : Bool) (e : String)
    (hrem : FromRemoteSecret rd s.Namespace s.Name s.Typ = .error e) :
    (processSecret rd wr s force doit verbose).differences = 1 ∧
      ∃ sum, upload rd wr (.ok [s]) force doit verbose = .ok sum ∧
        sum.keysChanged = 1 ∧ sum.secretsChanged = 1 := by
  have hdiff : secretDifferences rd s s.Data verbose = 1 := by
    unfold secretDifferences
    rw [hrem]
  refine ⟨?_, ?_⟩
  · rw [processSecret_differences, hdiff]
  · refine ⟨_, rfl, ?_, ?_⟩ <;>
      simp [upload, processSecret_differences, hdiff]

/-- C2 witness: a two-key secret whose remote fetch fails contributes one
difference. -/
theorem missing_remote_counts_one_witness :
    (processSecret (fun _ _ => .error "not found") (fun _ _ _ _ => .ok ())
      ⟨"infra", "db", "Opaque", [("a", "1"), ("b", "2")]⟩ false false false).differences = 1 ∧
      ∃ sum, upload (fun _ _ => .error "not found") (fun _ _ _ _ => .ok ())
        (.ok [⟨"infra", "db", "Opaque", [("a", "1"), ("b", "2")]⟩]) false false false = .ok sum ∧
        sum.keysChanged = 1 ∧ sum.secretsChanged = 1 :=
  missing_remote_counts_one _ _ _ _ _ _ "not found" rfl

/-- C2 counterexample: a local secret with two entries whose remote fetch
fails is counted as one difference, not its full key count of two. -/
theorem missing_remote_not_full_key_count :
    (processSecret (fun _ _ => .error "not found") (fun _ _ _ _ => .ok ())
      ⟨"infra", "db", "Opaque", [("a", "1"), ("b", "2")]⟩ false false false).differences = 1 ∧
    (⟨"infra", "db", "Opaque", [("a", "1"), ("b", "2")]⟩ : Secret).Data.length = 2 ∧
    (processSecret (fun _ _ => .error "not found") (fun _ _ _ _ => .ok ())
      ⟨"infra", "db", "Opaque", [("a", "1"), ("b", "2")]⟩ false false false).differences ≠
      (⟨"infra", "db", "Opaque", [("a", "1"), ("b", "2")]⟩ : Secret).Data.length := by
  decide

/-- C3 (amended): the upload command exits 0 exactly when loading the secret
set succeeded, regardless of any per-secret errors recorded during the
batch (they only appear in the printed summary); an invalid command exits 1. -/
theorem upload_errors_do_not_fail_process
    (rd : String → String → Except String (List (String × String)))
    (wr : String → String → String → List (String × String) → Except String Unit)
    (load : Except String (List Secret)) (force doit verbose : Bool)
    (dl df mf : Except String Unit) :
    (mainExitCode "upload" rd wr load force doit verbose dl df mf =
      match load with
      | .error _ => 1
      | .ok _ => 0) ∧
    (∀ c, validCommand c = false →
      mainExitCode c rd wr load force doit verbose dl df mf = 1) := by
  constructor
  · cases load <;> simp [mainExitCode, handleUpload, upload, validCommand]
  · intro c hc
    simp [mainExitCode, hc]

/-- C3 witness: a successful empty batch exits 0; the unknown command
`sync` exits 1. -/
theorem upload_errors_do_not_fail_process_witness :
    mainExitCode "upload" (fun _ _ => .error "x") (fun _ _ _ _ => .ok ())
        (.ok []) false false false (.ok ()) (.ok ()) (.ok ()) = 0 ∧
      mainExitCode "sync" (fun _ _ => .error "x") (fun _ _ _ _ => .ok ())
        (.ok []) false false false (.ok ()) (.ok ()) (.ok ()) = 1 :=
  ⟨(upload_errors_do_not_fail_process _ _ _ _ _ _ _ _ _).1,
    (upload_errors_do_not_fail_process _ _ _ _ _ _ _ _ _).2 "sync" (by decide)⟩

/-- C3 counterexample: an upload batch that records one per-secret error
(a docker-registry secret with no `docker-server`, so the conversion before
the write fails) still exits 0, contradicting the claim that any per-secret
error yields exit code 1. -/
theorem per_secret_error_exits_zero :
    upload (fun _ _ => .error "connection refused") (fun _ _ _ _ => .ok ())
      (.ok [⟨"infra", "registry", "kubernetes.io/dockerconfigjson", [("docker-username", "u")]⟩])
      false true false = .ok ⟨1, 1, 1⟩ ∧
    mainExitCode "upload" (fun _ _ => .error "connection refused") (fun _ _ _ _ => .ok ())
      (.ok [⟨"infra", "registry", "kubernetes.io/dockerconfigjson", [("docker-username", "u")]⟩])
      false true false (.ok ()) (.ok ()) (.ok ()) = 0 := by
  decide

/-- C9 (amended): the wire-to-canonical transform selects the first `auths`
entry in map iteration order; the result depends only on that first entry,
so it is iteration-order independent exactly in the typical single-entry
case.  (With several entries the Go runtime's randomized map iteration
order decides which is selected; see the counterexample.) -/
theorem docker_selection_first_entry (k : String) (a : DockerAuth)
    (rest : List (String × DockerAuth)) :
    parseDockerConfig ⟨(k, a) :: rest⟩ = parseDockerConfig ⟨[(k, a)]⟩ ∧
    ∀ l : List (String × DockerAuth), l.Perm [(k, a)] →
      parseDockerConfig ⟨l⟩ = parseDockerConfig ⟨[(k, a)]⟩ := by
  constructor
  · rfl
  · intro l hl
    rw [List.perm_singleton.mp hl]

/-- C9 witness: with a two-entry `auths`, the head entry alone determines
the result, and any iteration order of a singleton `auths` parses alike. -/
theorem docker_selection_first_entry_witness :
    parseDockerConfig ⟨[("ghcr.io", ⟨"u", "p", "", "x"⟩), ("docker.io", ⟨"v", "q", "", "y"⟩)]⟩ =
      parseDockerConfig ⟨[("ghcr.io", ⟨"u", "p", "", "x"⟩)]⟩ ∧
    ∀ l : List (String × DockerAuth), l.Perm [("ghcr.io", ⟨"u", "p", "", "x"⟩)] →
      parseDockerConfig ⟨l⟩ = parseDockerConfig ⟨[("ghcr.io", ⟨"u", "p", "", "x"⟩)]⟩ :=
  docker_selection_first_entry "ghcr.io" ⟨"u", "p", "", "x"⟩ [("docker.io", ⟨"v", "q", "", "y"⟩)]

/-- C9 counterexample: the same two-entry `auths` map presented in two
iteration orders (a permutation, i.e. the same input document) parses to
two different results, so the selection is not a function of the input
alone and two runs need not agree. -/
theorem docker_selection_order_dependent :
    ([("a.example.com", (⟨"u1", "p1", "", "x"⟩ : DockerAuth)),
        ("b.example.com", ⟨"u2", "p2", "", "y"⟩)].Perm
      [("b.example.com", (⟨"u2", "p2", "", "y"⟩ : DockerAuth)),
        ("a.example.com", ⟨"u1", "p1", "", "x"⟩)]) ∧
    parseDockerConfig ⟨[("a.example.com", ⟨"u1", "p1", "", "x"⟩),
        ("b.example.com", ⟨"u2", "p2", "", "y"⟩)]⟩ ≠
      parseDockerConfig ⟨[("b.example.com", ⟨"u2", "p2", "", "y"⟩),
        ("a.example.com", ⟨"u1", "p1", "", "x"⟩)]⟩ := by
  constructor
  · exact List.Perm.swap _ _ _
  · decide

/-- Helper: the auth JSON object carries an `email` field exactly when the
email is non-empty (`omitempty`). -/
theorem dockerAuthFields_email_mem (a : DockerAuth) :
    "email" ∈ mapKeys (dockerAuthFields a) ↔ a.Email ≠ "" := by
  by_cases h : a.Email = "" <;> simp [dockerAuthFields, mapKeys, h]

/-- C6: the canonical-to-wire conversion fails with an error naming the
offending field whenever `docker-server`, `docker-username` or
`docker-password` is missing or empty (a missing key and an empty value
coincide, Go's map zero value being `""`); when all three are present and
non-empty it succeeds with the composite document, whose auth object
carries an `email` field exactly when `docker-email` is non-empty. -/
theorem build_docker_validation (values : List (String × String)) :
    ((((mapGet values "docker-server").getD "" = "") ∨
      ((mapGet values "docker-username").getD "" = "") ∨
      ((mapGet values "docker-password").getD "" = "")) →
      ∃ f, f ∈ ["docker-server", "docker-username", "docker-password"] ∧
        (mapGet values f).getD "" = "" ∧
        BuildDockerConfigJSON values =
          .error (f ++ " is required for docker-registry secrets")) ∧
    (((mapGet values "docker-server").getD "" ≠ "") →
      ((mapGet values "docker-username").getD "" ≠ "") →
      ((mapGet values "docker-password").getD "" ≠ "") →
      BuildDockerConfigJSON values = .ok (DockerConfig.marshal
        ⟨[((mapGet values "docker-server").getD "",
          ⟨(mapGet values "docker-username").getD "",
            (mapGet values "docker-password").getD "",
            (mapGet values "docker-email").getD "",
            base64StdEncode ((mapGet values "docker-username").getD "" ++ ":" ++
              (mapGet values "docker-password").getD "")⟩)]⟩) ∧
      ("email" ∈ mapKeys (dockerAuthFields
          ⟨(mapGet values "docker-username").getD "",
            (mapGet values "docker-password").getD "",
            (mapGet values "docker-email").getD "",
            base64StdEncode ((mapGet values "docker-username").getD "" ++ ":" ++
              (mapGet values "docker-password").getD "")⟩) ↔
        (mapGet values "docker-email").getD "" ≠ "")) := by
  constructor
  · intro h
    by_cases hs : (mapGet values "docker-server").getD "" = ""
    · refine ⟨"docker-server", by decide, hs, ?_⟩
      unfold BuildDockerConfigJSON buildDockerConfig
      simp [hs]
    · by_cases hu : (mapGet values "docker-username").getD "" = ""
      · refine ⟨"docker-username", by decide, hu, ?_⟩
        unfold BuildDockerConfigJSON buildDockerConfig
        cases o : mapGet values "docker-server" with
        | none => simp [o] at hs
        | some v =>
          simp [o] at hs ⊢
          simp [hs, hu]
      · have hp : (mapGet values "docker-password").getD "" = "" := by
          rcases h with h | h | h
          · exact absurd h hs
          · exact absurd h hu
          · exact h
        refine ⟨"docker-password", by decide, hp, ?_⟩
        unfold BuildDockerConfigJSON buildDockerConfig
        cases o : mapGet values "docker-server" with
        | none => simp [o] at hs
        | some v =>
          cases ou : mapGet values "docker-username" with
          | none => simp [ou] at hu
          | some w =>
            simp [o, ou] at hs hu ⊢
            simp [hs, hu, hp]
  · intro hs hu hp
    unfold BuildDockerConfigJSON buildDockerConfig
    cases o : mapGet values "docker-server" with
    | none => simp [o] at hs
    | some v =>
      cases ou : mapGet values "docker-username" with
      | none => simp [ou] at hu
      | some w =>
        cases op : mapGet values "docker-password" with
        | none => simp [op] at hp
        | some x =>
          simp [o, ou, op] at hs hu hp ⊢
          simp [hs, hu, hp]
          exact dockerAuthFields_email_mem _

/-- C6 witness: a map without `docker-server` fails naming a field; a
complete map without an email succeeds and omits the email field. -/
theorem build_docker_validation_witness :
    (∃ f, f ∈ ["docker-server", "docker-username", "docker-password"] ∧
      (mapGet [("docker-username", "u"), ("docker-password", "p")] f).getD "" = "" ∧
      BuildDockerConfigJSON [("docker-username", "u"), ("docker-password", "p")] =
        .error (f ++ " is required for docker-registry secrets")) ∧
    (BuildDockerConfigJSON
        [("docker-server", "https://ghcr.io"), ("docker-username", "testuser"),
          ("docker-password", "testpass")] = .ok (DockerConfig.marshal
      ⟨[("https://ghcr.io",
        ⟨"testuser", "testpass", "", base64StdEncode ("testuser" ++ ":" ++ "testpass")⟩)]⟩) ∧
      ("email" ∈ mapKeys (dockerAuthFields
        ⟨"testuser", "testpass", "", base64StdEncode ("testuser" ++ ":" ++ "testpass")⟩) ↔
        ("" : String) ≠ "")) :=
  ⟨(build_docker_validation [("docker-username", "u"), ("docker-password", "p")]).1
      (Or.inl (by decide)),
    (build_docker_validation
        [("docker-server", "https://ghcr.io"), ("docker-username", "testuser"),
          ("docker-password", "testpass")]).2
      (by decide) (by decide) (by decide)⟩

/-- Helper: left-cancellation for string concatenation. -/
theorem strAppend_left_cancel {u s t : String} (h : u ++ s = u ++ t) : s = t := by
  have hd := congrArg String.data h
  simp only [String.data_append] at hd
  have := List.append_cancel_left hd
  cases s with
  | mk sd => cases t with
    | mk td => exact congrArg String.mk this

/-- Helper: counting over a flattened list is the sum of the per-block
counts. -/
theorem countP_flatMap {α β : Type} (l : List α) (f : α → List β) (p : β → Bool) :
    (l.flatMap f).countP p = (l.map (fun a => (f a).countP p)).sum := by
  induction l with
  | nil => simp
  | cons a t ih => simp [List.flatMap_cons, List.countP_append, ih]

/-- Helper: one key's block in local comparison output holds two value
lines when the key differs and none otherwise. -/
theorem localKeyLines_countVal (ns1 ns2 : String) (d1 d2 : List (String × String))
    (verbose : Bool) (k : String) :
    (localKeyLines ns1 ns2 d1 d2 verbose k).countP OutLine.isVal =
      if changedAt d1 d2 k then 2 else 0 := by
  by_cases h : changedAt d1 d2 k <;>
    simp [localKeyLines, h, OutLine.isVal, List.countP_cons]

/-- Helper: one key's block in remote comparison output holds two value
lines when the key differs and none otherwise. -/
theorem remoteKeyLines_countVal (name : String) (onsite remote : List (String × String))
    (verbose : Bool) (k : String) :
    (remoteKeyLines name onsite remote verbose k).countP OutLine.isVal =
      if changedAt onsite remote k then 2 else 0 := by
  by_cases h : changedAt onsite remote k <;> cases verbose <;>
    simp [remoteKeyLines, h, OutLine.isVal, List.countP_cons, List.countP_append]

/-- Helper: summing two per changed key equals twice the changed count. -/
theorem sum_map_ite_two (keys : List String) (q : String → Bool) :
    (keys.map (fun k => if q k then 2 else 0)).sum = 2 * keys.countP q := by
  induction keys with
  | nil => simp
  | cons a t ih =>
    by_cases h : q a <;> simp [h, ih, List.countP_cons] <;> omega

/-- C5 (amended): in a local-vs-local comparison every key in the sorted
union is reported regardless of verbosity, and the output holds exactly one
pair of value lines per key classified different; in a local-vs-remote
comparison the key line is reported exactly when the key is different or
the verbose flag is set (an unchanged key is silent in non-verbose mode),
with value pairs again exactly for the different keys. -/
theorem compare_output_policy :
    (∀ ns1 ns2 d1 d2 (verbose : Bool) k, k ∈ sortedUnionKeys d1 d2 →
      OutLine.key k ∈ (compareSecretsLocal ns1 ns2 d1 d2 verbose).2) ∧
    (∀ ns1 ns2 d1 d2 (verbose : Bool),
      ((compareSecretsLocal ns1 ns2 d1 d2 verbose).2.countP OutLine.isVal) =
        2 * (compareSecretsLocal ns1 ns2 d1 d2 verbose).1) ∧
    (∀ name onsite remote (verbose : Bool) k, k ∈ sortedUnionKeys onsite remote →
      (OutLine.key (name ++ "/" ++ k) ∈ (compareSecretsRemote name onsite remote verbose).2 ↔
        (changedAt onsite remote k || verbose) = true)) ∧
    (∀ name onsite remote (verbose : Bool),
      ((compareSecretsRemote name onsite remote verbose).2.countP OutLine.isVal) =
        2 * (compareSecretsRemote name onsite remote verbose).1) := by
  refine ⟨?_, ?_, ?_, ?_⟩
  · intro ns1 ns2 d1 d2 verbose k hk
    exact List.mem_flatMap.mpr ⟨k, hk, by simp [localKeyLines]⟩
  · intro ns1 ns2 d1 d2 verbose
    simp only [compareSecretsLocal]
    rw [countP_flatMap]
    simp only [localKeyLines_countVal]
    exact sum_map_ite_two _ _
  · intro name onsite remote verbose k hk
    constructor
    · intro hmem
      obtain ⟨k', hk', hmem⟩ := List.mem_flatMap.mp hmem
      by_cases c' : changedAt onsite remote k' <;> cases verbose <;>
        simp [remoteKeyLines, c', OutLine.isVal] at hmem <;>
          (have heq := strAppend_left_cancel hmem
           subst heq
           simp [c'])
    · intro h
      refine List.mem_flatMap.mpr ⟨k, hk, ?_⟩
      simp [remoteKeyLines, h]
  · intro name onsite remote verbose
    simp only [compareSecretsRemote]
    rw [countP_flatMap]
    simp only [remoteKeyLines_countVal]
    exact sum_map_ite_two _ _

/-- C5 witness: a differing key is reported in local output; in remote
verbose output an unchanged key's line is present. -/
theorem compare_output_policy_witness :
    OutLine.key "k" ∈ (compareSecretsLocal "live" "test" [("k", "1")] [("k", "2")] false).2 ∧
    (OutLine.key ("ns/n" ++ "/" ++ "k") ∈
        (compareSecretsRemote "ns/n" [("k", "v")] [("k", "v")] true).2 ↔
      (changedAt [("k", "v")] [("k", "v")] "k" || true) = true) :=
  ⟨compare_output_policy.1 "live" "test" [("k", "1")] [("k", "2")] false "k" (by decide),
    compare_output_policy.2.2.1 "ns/n" [("k", "v")] [("k", "v")] true "k" (by decide)⟩

/-- C5 counterexample: in a local-vs-remote comparison with the verbose
flag unset, a key present and equal on both sides is not reported at all
(the output is empty), contradicting the claim that every key in the union
is reported independently of the verbose flag. -/
theorem unchanged_key_not_reported_nonverbose :
    compareSecretsRemote "ns/n" [("k", "v")] [("k", "v")] false = (0, []) ∧
    sortedUnionKeys [("k", "v")] [("k", "v")] = ["k"] := by
  decide

/-- Helper: a Go map read after `m[k] = v` sees `v` at `k`. -/
theorem mapGet_mapInsert_self {α : Type} (m : List (String × α)) (k : String) (v : α) :
    mapGet (mapInsert m k v) k = some v := by
  induction m with
  | nil => simp [mapInsert, mapGet]
  | cons p rest ih =>
    by_cases h : p.1 = k
    · simp [mapInsert, mapGet, h]
    · simpa [mapInsert, mapGet, h] using ih

/-- Helper: lookup in a non-empty map checks the head first. -/
theorem mapGet_cons {α : Type} (pk : String) (pv : α) (rest : List (String × α))
    (k : String) :
    mapGet ((pk, pv) :: rest) k = if pk = k then some pv else mapGet rest k := by
  by_cases h : pk = k <;> simp [mapGet, h]

/-- Helper: `m[k] = v` leaves other keys unchanged. -/
theorem mapGet_mapInsert_ne {α : Type} (m : List (String × α)) (k k' : String) (v : α)
    (h : k' ≠ k) : mapGet (mapInsert m k v) k' = mapGet m k' := by
  induction m with
  | nil => simp [mapInsert, mapGet_cons, Ne.symm h, mapGet]
  | cons p rest ih =>
    obtain ⟨pk, pv⟩ := p
    by_cases hp : pk = k
    · subst hp
      simp [mapInsert, mapGet_cons, Ne.symm h]
    · simp [mapInsert, hp, mapGet_cons]
      by_cases hp' : pk = k'
      · simp [hp']
      · simp [hp', ih]

/-- Helper: exactly which lines the scan loop consumes as a type
directive: line 1, trimmed form starting with `#`, and a non-empty
extracted type. -/
theorem classify_typeDecl_iff (n : Nat) (raw t0 : String) :
    classifyLine n raw = .typeDecl t0 ↔
      n = 1 ∧ strStartsWith (strTrim raw) "#" = true ∧
        extractTypeFromComment (strTrim raw) ≠ "" ∧
        t0 = extractTypeFromComment (strTrim raw) := by
  unfold classifyLine
  by_cases h1 : n = 1 ∧ strStartsWith (strTrim raw) "#" = true ∧
      extractTypeFromComment (strTrim raw) ≠ ""
  · obtain ⟨ha, hb, hc⟩ := h1
    simp [ha, hb, hc, eq_comm]
  · simp only [h1, if_false]
    by_cases h2 : strTrim raw = "" ∨ strStartsWith (strTrim raw) "#" = true
    · simp [h2]
      intro hn hsw hex
      exact absurd ⟨hn, hsw, hex⟩ h1
    · simp [h2]
      cases hsp : splitFirstEq (strTrim raw) with
      | none =>
        simp
        intro hn hsw hex
        exact absurd ⟨hn, hsw, hex⟩ h1
      | some kv =>
        simp
        intro hn hsw hex
        exact absurd ⟨hn, hsw, hex⟩ h1

/-- Helper: the split walk stops at the first `=`. -/
theorem splitFirstEqAux_append (bd : List Char) :
    ∀ (ad acc : List Char), '=' ∉ ad →
      splitFirstEqAux acc (ad ++ '=' :: bd) =
        some (String.mk (acc.reverse ++ ad), String.mk bd) := by
  intro ad
  induction ad with
  | nil => intro acc _; simp [splitFirstEqAux]
  | cons c rest ih =>
    intro acc hmem
    have hc : c ≠ '=' := fun hc => hmem (by simp [hc])
    have hrest : '=' ∉ rest := fun hr => hmem (by simp [hr])
    simp only [List.cons_append, splitFirstEqAux, hc, if_false]
    simpa using ih (c :: acc) hrest

/-- Helper: a line whose key part holds no `=` splits at its first `=`,
leaving any further `=` inside the value. -/
theorem splitFirstEq_split (a b : String) (h : '=' ∉ a.data) :
    splitFirstEq (a ++ "=" ++ b) = some (a, b) := by
  unfold splitFirstEq
  have hd : (a ++ "=" ++ b).data = a.data ++ '=' :: b.data := by
    simp [String.data_append]
  rw [hd, splitFirstEqAux_append b.data a.data [] h]
  simp

/-- Helper: the split walk fails exactly on `=`-free input. -/
theorem splitFirstEqAux_none_iff :
    ∀ (cs acc : List Char), splitFirstEqAux acc cs = none ↔ '=' ∉ cs := by
  intro cs
  induction cs with
  | nil => intro acc; simp [splitFirstEqAux]
  | cons c rest ih =>
    intro acc
    by_cases hc : c = '='
    · simp [splitFirstEqAux, hc]
    · simp [splitFirstEqAux, hc, ih (c :: acc), Ne.symm hc]

/-- Helper: `strings.SplitN(line, "=", 2)` has one part exactly when the
line holds no `=`. -/
theorem splitFirstEq_none_iff (s : String) :
    splitFirstEq s = none ↔ '=' ∉ s.data :=
  splitFirstEqAux_none_iff s.data []

/-- Helper: exactly which lines the scan loop rejects: trimmed form
non-empty, not a comment, and holding no `=`. -/
theorem classify_badLine_iff (n : Nat) (raw : String) (m : Nat) (c : String) :
    classifyLine n raw = .badLine m c ↔
      m = n ∧ c = strTrim raw ∧ strTrim raw ≠ "" ∧
        strStartsWith (strTrim raw) "#" = false ∧ '=' ∉ (strTrim raw).data := by
  unfold classifyLine
  by_cases h1 : n = 1 ∧ strStartsWith (strTrim raw) "#" = true ∧
      extractTypeFromComment (strTrim raw) ≠ ""
  · simp [h1]
  · simp only [h1, if_false]
    by_cases h2 : strTrim raw = "" ∨ strStartsWith (strTrim raw) "#" = true
    · simp [h2]
      intro _ _ hne hsw
      rcases h2 with h2 | h2
      · exact absurd h2 hne
      · rw [h2] at hsw
        exact Bool.noConfusion hsw
    · push_neg at h2
      obtain ⟨h2a, h2b⟩ := h2
      have h2b' : strStartsWith (strTrim raw) "#" = false := by
        cases hb : strStartsWith (strTrim raw) "#"
        · rfl
        · exact absurd hb h2b
      simp only [h2a, h2b, false_or, if_false, if_neg (fun hx => h2b (Or.elim hx (fun hy => absurd hy h2a) id))]
      cases hsp : splitFirstEq (strTrim raw) with
      | none =>
        have := (splitFirstEq_none_iff (strTrim raw)).mp hsp
        simp [h2a, h2b', this]
        exact ⟨fun ⟨hn, hc⟩ => ⟨hn.symm, hc.symm⟩, fun ⟨hn, hc⟩ => ⟨hn.symm, hc.symm⟩⟩
      | some kv =>
        have : ¬ ('=' ∉ (strTrim raw).data) := by
          intro hnot
          rw [(splitFirstEq_none_iff (strTrim raw)).mpr hnot] at hsp
          exact Option.noConfusion hsp
        simp [this]

/-- Helper: the scan loop fails exactly when some line is rejected, with
the message naming the first rejected line. -/
theorem parseSecretLines_error_iff :
    ∀ (lines : List String) (n : Nat) (data : List (String × String)) (t e : String),
      parseSecretLines lines n data t = .error e ↔
        ∃ m c, firstBadFrom n lines = some (m, c) ∧
          e = "invalid line " ++ toString m ++ ": " ++ c ++ " (expected KEY=VALUE format)" := by
  intro lines
  induction lines with
  | nil => intro n data t e; simp [parseSecretLines, firstBadFrom]
  | cons raw rest ih =>
    intro n data t e
    cases hcl : classifyLine n raw with
    | typeDecl t0 => simp [parseSecretLines, firstBadFrom, hcl, ih]
    | skip => simp [parseSecretLines, firstBadFrom, hcl, ih]
    | entry k v => simp [parseSecretLines, firstBadFrom, hcl, ih]
    | badLine m c =>
      simp [parseSecretLines, firstBadFrom, hcl]
      constructor
      · intro he
        exact ⟨m, c, ⟨rfl, rfl⟩, he.symm⟩
      · rintro ⟨m', c', ⟨h1, h2⟩, he⟩
        subst h1
        subst h2
        exact he.symm

/-- Helper: with no rejected line the scan loop succeeds. -/
theorem parseSecretLines_ok_of_noBad :
    ∀ (lines : List String) (n : Nat) (data : List (String × String)) (t : String),
      firstBadFrom n lines = none →
        ∃ d t', parseSecretLines lines n data t = .ok (d, t') := by
  intro lines
  induction lines with
  | nil => intro n data t _; exact ⟨data, t, rfl⟩
  | cons raw rest ih =>
    intro n data t hno
    cases hcl : classifyLine n raw with
    | typeDecl t0 =>
      simp [firstBadFrom, hcl] at hno
      simpa [parseSecretLines, hcl] using ih (n + 1) data t0 hno
    | skip =>
      simp [firstBadFrom, hcl] at hno
      simpa [parseSecretLines, hcl] using ih (n + 1) data t hno
    | entry k v =>
      simp [firstBadFrom, hcl] at hno
      simpa [parseSecretLines, hcl] using ih (n + 1) (mapInsert data k v) t hno
    | badLine m c =>
      simp [firstBadFrom, hcl] at hno

/-- Helper: from line 2 on the secret type can no longer change. -/
theorem parseSecretLines_type_stable :
    ∀ (lines : List String) (n : Nat) (data d : List (String × String)) (t t' : String),
      2 ≤ n → parseSecretLines lines n data t = .ok (d, t') → t' = t := by
  intro lines
  induction lines with
  | nil =>
    intro n data d t t' _ h
    simp [parseSecretLines] at h
    exact h.2.symm
  | cons raw rest ih =>
    intro n data d t t' hn h
    cases hcl : classifyLine n raw with
    | typeDecl t0 =>
      have := (classify_typeDecl_iff n raw t0).mp hcl
      omega
    | skip =>
      rw [parseSecretLines, hcl] at h
      exact ih (n + 1) data d t t' (by omega) h
    | entry k v =>
      rw [parseSecretLines, hcl] at h
      exact ih (n + 1) (mapInsert data k v) d t t' (by omega) h
    | badLine m c =>
      rw [parseSecretLines, hcl] at h
      exact Except.noConfusion h

/-- Helper: the final map holds, per key, the value of the last line that
set it, falling back to the accumulator. -/
theorem parseSecretLines_lastEntry :
    ∀ (lines : List String) (n : Nat) (data d : List (String × String)) (t t' : String),
      parseSecretLines lines n data t = .ok (d, t') →
      ∀ k, mapGet d k =
        match lastEntryFrom k n lines with
        | some v => some v
        | none => mapGet data k := by
  intro lines
  induction lines with
  | nil =>
    intro n data d t t' h k
    simp [parseSecretLines] at h
    simp [lastEntryFrom, h.1]
  | cons raw rest ih =>
    intro n data d t t' h k
    cases hcl : classifyLine n raw with
    | typeDecl t0 =>
      rw [parseSecretLines, hcl] at h
      rw [lastEntryFrom]
      rw [ih (n + 1) data d t0 t' h k]
      cases lastEntryFrom k (n + 1) rest <;> simp [hcl]
    | skip =>
      rw [parseSecretLines, hcl] at h
      rw [lastEntryFrom]
      rw [ih (n + 1) data d t t' h k]
      cases lastEntryFrom k (n + 1) rest <;> simp [hcl]
    | entry k' v =>
      rw [parseSecretLines, hcl] at h
      rw [lastEntryFrom]
      rw [ih (n + 1) (mapInsert data k' v) d t t' h k]
      cases lastEntryFrom k (n + 1) rest with
      | some w => simp
      | none =>
        simp [hcl]
        by_cases hk : k' = k
        · subst hk
          simp [mapGet_mapInsert_self]
        · simp [hk, mapGet_mapInsert_ne data k' k v (Ne.symm hk)]
    | badLine m c =>
      rw [parseSecretLines, hcl] at h
      exact Except.noConfusion h

/-- C7: every non-comment, non-empty line is split at its first `=` (the
value keeps any further `=`); a line with no `=` is rejected, and the whole
parse then fails with an error naming the first such line\'s 1-based number
and trimmed content.  Conversely the parse only fails that way. -/
theorem parse_line_split_and_error :
    (∀ a b : String, '=' ∉ a.data → splitFirstEq (a ++ "=" ++ b) = some (a, b)) ∧
    (∀ (n : Nat) (raw : String) (m : Nat) (c : String),
      classifyLine n raw = .badLine m c ↔
        m = n ∧ c = strTrim raw ∧ strTrim raw ≠ "" ∧
          strStartsWith (strTrim raw) "#" = false ∧ '=' ∉ (strTrim raw).data) ∧
    (∀ lines m c, firstBadFrom 1 lines = some (m, c) →
      parseSecretContent lines =
        .error ("invalid line " ++ toString m ++ ": " ++ c ++ " (expected KEY=VALUE format)")) ∧
    (∀ lines e, parseSecretContent lines = .error e →
      ∃ m c, firstBadFrom 1 lines = some (m, c) ∧
        e = "invalid line " ++ toString m ++ ": " ++ c ++ " (expected KEY=VALUE format)") := by
  refine ⟨splitFirstEq_split, classify_badLine_iff, ?_, ?_⟩
  · intro lines m c h
    have := (parseSecretLines_error_iff lines 1 [] "Opaque"
      ("invalid line " ++ toString m ++ ": " ++ c ++ " (expected KEY=VALUE format)")).mpr
      ⟨m, c, h, rfl⟩
    unfold parseSecretContent
    rw [this]
  · intro lines e h
    unfold parseSecretContent at h
    cases hp : parseSecretLines lines 1 [] "Opaque" with
    | error e' =>
      rw [hp] at h
      have he : e' = e := by
        simpa using h
      subst he
      obtain ⟨m, c, hb, hm⟩ := (parseSecretLines_error_iff lines 1 [] "Opaque" e').mp hp
      exact ⟨m, c, hb, hm⟩
    | ok pair =>
      rw [hp] at h
      exact Except.noConfusion h

/-- Helper: a successful parse factors into the scan loop and the alias
mapping of the final type. -/
theorem parseSecretContent_ok_split (lines : List String) (d : List (String × String))
    (t : String) (h : parseSecretContent lines = .ok (d, t)) :
    ∃ t', parseSecretLines lines 1 [] "Opaque" = .ok (d, t') ∧ t = mapSecretType t' := by
  unfold parseSecretContent at h
  cases hp : parseSecretLines lines 1 [] "Opaque" with
  | error e =>
    rw [hp] at h
    exact Except.noConfusion h
  | ok pair =>
    obtain ⟨pd, pt⟩ := pair
    rw [hp] at h
    simp at h
    refine ⟨pt, ?_, h.2.symm⟩
    rw [h.1]

/-- C8: if the first line (in trimmed form) begins with `#` and matches the
`# type = <value>` directive pattern, the parser consumes it as the type
declaration, contributing no entry, and the parsed type is the alias-mapped
directive value; otherwise the parsed type is the default `Opaque` (type
directives on later lines have no effect). -/
theorem type_directive_first_line :
    (∀ first rest, strStartsWith (strTrim first) "#" = true →
      extractTypeFromComment (strTrim first) ≠ "" →
      parseSecretLines (first :: rest) 1 [] "Opaque" =
        parseSecretLines rest 2 [] (extractTypeFromComment (strTrim first))) ∧
    (∀ first rest d t, strStartsWith (strTrim first) "#" = true →
      extractTypeFromComment (strTrim first) ≠ "" →
      parseSecretContent (first :: rest) = .ok (d, t) →
      t = mapSecretType (extractTypeFromComment (strTrim first))) ∧
    (∀ lines d t, parseSecretContent lines = .ok (d, t) →
      (match lines with
       | [] => True
       | first :: _ => strStartsWith (strTrim first) "#" = false ∨
           extractTypeFromComment (strTrim first) = "") →
      t = "Opaque") := by
  have hstep : ∀ first rest, strStartsWith (strTrim first) "#" = true →
      extractTypeFromComment (strTrim first) ≠ "" →
      parseSecretLines (first :: rest) 1 [] "Opaque" =
        parseSecretLines rest 2 [] (extractTypeFromComment (strTrim first)) := by
    intro first rest h1 h2
    have hcl : classifyLine 1 first = .typeDecl (extractTypeFromComment (strTrim first)) :=
      (classify_typeDecl_iff 1 first _).mpr ⟨rfl, h1, h2, rfl⟩
    rw [parseSecretLines, hcl]
  refine ⟨hstep, ?_, ?_⟩
  · intro first rest d t h1 h2 h
    obtain ⟨t', hp, ht⟩ := parseSecretContent_ok_split _ _ _ h
    rw [hstep first rest h1 h2] at hp
    have := parseSecretLines_type_stable rest 2 [] d
      (extractTypeFromComment (strTrim first)) t' (by omega) hp
    rw [ht, this]
  · intro lines d t h hshape
    cases lines with
    | nil =>
      obtain ⟨t', hp, ht⟩ := parseSecretContent_ok_split _ _ _ h
      have : t' = "Opaque" := by
        rw [parseSecretLines] at hp
        injection hp with hpair
        injection hpair with h1 h2
        exact h2.symm
      rw [ht, this]
      decide
    | cons first rest =>
      obtain ⟨t', hp, ht⟩ := parseSecretContent_ok_split _ _ _ h
      cases hcl : classifyLine 1 first with
      | typeDecl t0 =>
        obtain ⟨_, hsw, hex, _⟩ := (classify_typeDecl_iff 1 first t0).mp hcl
        rcases hshape with hx | hx
        · rw [hsw] at hx
          exact Bool.noConfusion hx
        · exact absurd hx hex
      | skip =>
        have hrw : parseSecretLines (first :: rest) 1 [] "Opaque" =
            parseSecretLines rest 2 [] "Opaque" := by
          rw [parseSecretLines, hcl]
        rw [hrw] at hp
        have := parseSecretLines_type_stable rest 2 [] d "Opaque" t' (by omega) hp
        rw [ht, this]
        decide
      | entry k v =>
        have hrw : parseSecretLines (first :: rest) 1 [] "Opaque" =
            parseSecretLines rest 2 (mapInsert [] k v) "Opaque" := by
          rw [parseSecretLines, hcl]
        rw [hrw] at hp
        have := parseSecretLines_type_stable rest 2 (mapInsert [] k v) d "Opaque" t'
          (by omega) hp
        rw [ht, this]
        decide
      | badLine m c =>
        have hrw : parseSecretLines (first :: rest) 1 [] "Opaque" =
            .error ("invalid line " ++ toString m ++ ": " ++ c ++
              " (expected KEY=VALUE format)") := by
          rw [parseSecretLines, hcl]
        rw [hrw] at hp
        exact Except.noConfusion hp

/-- C10: when no line is rejected (each is blank, a comment, or holds an
`=`), the parse succeeds no matter how often a key repeats, and each key
maps to the value of its last occurrence. -/
theorem duplicate_keys_last_wins (lines : List String)
    (hok : firstBadFrom 1 lines = none) :
    ∃ d t, parseSecretContent lines = .ok (d, t) ∧
      ∀ k, mapGet d k = lastEntryFrom k 1 lines := by
  obtain ⟨d, t', hp⟩ := parseSecretLines_ok_of_noBad lines 1 [] "Opaque" hok
  refine ⟨d, mapSecretType t', ?_, ?_⟩
  · unfold parseSecretContent
    rw [hp]
  · intro k
    have := parseSecretLines_lastEntry lines 1 [] d "Opaque" t' hp k
    rw [this]
    cases lastEntryFrom k 1 lines <;> simp [mapGet]

/-- C7 witness: a value containing `=` survives the split; a two-line
input whose second line lacks `=` fails naming line 2. -/
theorem parse_line_split_and_error_witness :
    splitFirstEq ("key" ++ "=" ++ "va=lue") = some ("key", "va=lue") ∧
    parseSecretContent ["a=1", "oops"] =
      .error ("invalid line " ++ toString 2 ++ ": " ++ "oops" ++ " (expected KEY=VALUE format)") :=
  ⟨parse_line_split_and_error.1 "key" "va=lue" (by decide),
   parse_line_split_and_error.2.2.1 ["a=1", "oops"] 2 "oops" (by decide)⟩

/-- C8 witness: `# type=tls` on line 1 is consumed and maps to
`kubernetes.io/tls`; without a directive the type stays `Opaque`. -/
theorem type_directive_first_line_witness :
    parseSecretLines ["# type=tls", "a=1"] 1 [] "Opaque" =
      parseSecretLines ["a=1"] 2 [] (extractTypeFromComment (strTrim "# type=tls")) ∧
    "kubernetes.io/tls" = mapSecretType (extractTypeFromComment (strTrim "# type=tls")) ∧
    ("Opaque" : String) = "Opaque" :=
  ⟨type_directive_first_line.1 "# type=tls" ["a=1"] (by decide) (by decide),
   type_directive_first_line.2.1 "# type=tls" ["a=1"] [("a", "1")] "kubernetes.io/tls"
     (by decide) (by decide) (by decide),
   type_directive_first_line.2.2 ["a=1"] [("a", "1")] "Opaque" (by decide) (Or.inl (by decide))⟩

/-- C10 witness: `a` appearing on lines 1 and 3 parses fine and ends up
with the value of line 3. -/
theorem duplicate_keys_last_wins_witness :
    ∃ d t, parseSecretContent ["a=1", "b=2", "a=3"] = .ok (d, t) ∧
      ∀ k, mapGet d k = lastEntryFrom k 1 ["a=1", "b=2", "a=3"] :=
  duplicate_keys_last_wins ["a=1", "b=2", "a=3"] (by decide)

/-- Helper: decoding a hex digit undoes encoding. -/
theorem hexVal_hexDigit : ∀ m, m < 16 → hexVal (hexDigit m) = some m := by
  decide

/-- Helper: parsing an escaped string body recovers the original
characters, for every string. -/
theorem parseJString_escape :
    ∀ (cs rest : List Char),
      parseJString (cs.flatMap escapeJsonChar ++ '"' :: rest) = .ok (cs, rest) := by
  intro cs
  induction cs with
  | nil =>
    intro rest
    rw [parseJString.eq_def]
    simp
  | cons c tail ih =>
    intro rest
    by_cases h1 : c = '"'
    · subst h1
      simp only [List.flatMap_cons, escapeJsonChar, List.cons_append, List.append_assoc,
        if_pos rfl]
      rw [parseJString.eq_def]
      simp [ih rest, consRes]
    · by_cases h2 : c = '\\'
      · subst h2
        simp only [List.flatMap_cons, escapeJsonChar, List.cons_append, List.append_assoc]
        norm_num
        rw [parseJString.eq_def]
        simp [ih rest, consRes]
      · by_cases h3 : c = '\n'
        · subst h3
          simp only [List.flatMap_cons, escapeJsonChar, List.cons_append, List.append_assoc]
          norm_num
          rw [parseJString.eq_def]
          simp [ih rest, consRes]
        · by_cases h4 : c = '\r'
          · subst h4
            simp only [List.flatMap_cons, escapeJsonChar, List.cons_append, List.append_assoc]
            norm_num
            rw [parseJString.eq_def]
            simp [ih rest, consRes]
          · by_cases h5 : c = '\t'
            · subst h5
              simp only [List.flatMap_cons, escapeJsonChar, List.cons_append,
                List.append_assoc]
              norm_num
              rw [parseJString.eq_def]
              simp [ih rest, consRes]
            · by_cases h6 : c = '<'
              · subst h6
                simp only [List.flatMap_cons, escapeJsonChar, List.cons_append,
                  List.append_assoc]
                norm_num
                rw [parseJString.eq_def]
                simp [hexVal, ih rest, consRes, show Char.ofNat 60 = '<' from by decide]
              · by_cases h7 : c = '>'
                · subst h7
                  simp only [List.flatMap_cons, escapeJsonChar, List.cons_append,
                    List.append_assoc]
                  norm_num
                  rw [parseJString.eq_def]
                  simp [hexVal, ih rest, consRes, show Char.ofNat 62 = '>' from by decide]
                · by_cases h8 : c = '&'
                  · subst h8
                    simp only [List.flatMap_cons, escapeJsonChar, List.cons_append,
                      List.append_assoc]
                    norm_num
                    rw [parseJString.eq_def]
                    simp [hexVal, ih rest, consRes, show Char.ofNat 38 = '&' from by decide]
                  · by_cases h9 : c.toNat < 32
                    · have hd1 : hexVal (hexDigit (c.toNat / 16)) = some (c.toNat / 16) :=
                        hexVal_hexDigit _ (by omega)
                      have hd2 : hexVal (hexDigit (c.toNat % 16)) = some (c.toNat % 16) :=
                        hexVal_hexDigit _ (by omega)
                      have hesc : escapeJsonChar c =
                          ['\\', 'u', '0', '0', hexDigit (c.toNat / 16),
                            hexDigit (c.toNat % 16)] := by
                        simp [escapeJsonChar, h1, h2, h3, h4, h5, h6, h7, h8, h9]
                      have hnat : c.toNat / 16 * 16 + c.toNat % 16 = c.toNat := by omega
                      simp only [List.flatMap_cons, hesc, List.cons_append, List.append_assoc]
                      rw [parseJString.eq_def]
                      simp [hd1, hd2, hnat, Char.ofNat_toNat, ih rest, consRes,
                        show hexVal '0' = some 0 from by decide]
                    · have hesc : escapeJsonChar c = [c] := by
                        simp [escapeJsonChar, h1, h2, h3, h4, h5, h6, h7, h8, h9]
                      simp only [List.flatMap_cons, hesc, List.cons_append,
                        List.singleton_append, List.append_assoc]
                      rw [parseJString.eq_def]
                      simp [h1, h2, ih rest, consRes]

/-- Helper: the characters of a rendered JSON string literal. -/
theorem renderJsonStr_data (s : String) :
    (renderJsonStr s).data = '"' :: (s.data.flatMap escapeJsonChar ++ ['"']) := by
  simp [renderJsonStr, escapeJsonString, String.data_append]

/-- Helper: a rendered string literal parses as a JSON string value. -/
theorem parseJValue_str (fuel : Nat) (cs rest : List Char) :
    parseJValue (fuel + 1) ('"' :: (cs.flatMap escapeJsonChar ++ '"' :: rest)) =
      .ok (Json.str (String.mk cs), rest) := by
  rw [parseJValue.eq_def]
  simp [isSpaceChar, parseJString_escape]

/-- Helper: a single rendered `key:value` string member parses back. -/
theorem parseJMembers_single (fuel : Nat) (k v : String) (rest : List Char) :
    parseJMembers (fuel + 2)
        ((renderJsonStr k ++ ":" ++ renderJsonStr v).data ++ '}' :: rest) =
      .ok ([(k, Json.str v)], rest) := by
  rw [parseJMembers.eq_def]
  simp only [String.data_append, renderJsonStr_data, List.cons_append, List.append_assoc,
    List.append_nil, List.singleton_append]
  simp [isSpaceChar, parseJString_escape, parseJValue_str fuel v.data ('\x7d' :: rest)]

/-- Helper: unfolding the separator between two rendered members. -/
theorem strIntercalate_cons2 (sep x y : String) (xs : List String) :
    strIntercalate sep (x :: y :: xs) = x ++ sep ++ strIntercalate sep (y :: xs) := rfl

/-- Helper: the rendered members of a string-valued object parse back,
in order. -/
theorem parseJMembers_strObj :
    ∀ (fields : List (String × String)) (k v : String) (fuel : Nat) (rest : List Char),
      parseJMembers (2 * fields.length + fuel + 2)
        ((strIntercalate "," (((k, v) :: fields).map
            (fun p => renderJsonStr p.1 ++ ":" ++ renderJsonStr p.2))).data ++ '}' :: rest) =
        .ok (((k, v) :: fields).map (fun q => (q.1, Json.str q.2)), rest) := by
  intro fields
  induction fields with
  | nil =>
    intro k v fuel rest
    simpa [strIntercalate] using parseJMembers_single fuel k v rest
  | cons p tl ih =>
    obtain ⟨k2, v2⟩ := p
    intro k v fuel rest
    rw [show 2 * ((k2, v2) :: tl).length + fuel + 2 = (2 * tl.length + fuel + 3) + 1 by
      simp [List.length_cons]; ring]
    have ih' := ih k2 v2 (fuel + 1) rest
    rw [show 2 * tl.length + (fuel + 1) + 2 = 2 * tl.length + fuel + 3 by ring] at ih'
    rw [parseJMembers.eq_def]
    simp only [List.map_cons, strIntercalate_cons2, String.data_append, renderJsonStr_data,
      List.cons_append, List.append_assoc, List.singleton_append]
    simp only [List.map_cons] at ih'
    simp [isSpaceChar, parseJString_escape, ih',
      parseJValue_str (2 * tl.length + fuel + 2) v.data]

/-- Helper: a rendered string-valued object parses back as a JSON
object value. -/
theorem parseJValue_strObj (k v : String) (fields : List (String × String)) (fuel : Nat)
    (rest : List Char) :
    parseJValue (2 * fields.length + fuel + 3)
        ((marshalStrObj ((k, v) :: fields)).data ++ rest) =
      .ok (Json.obj (((k, v) :: fields).map (fun q => (q.1, Json.str q.2))), rest) := by
  have hmem := parseJMembers_strObj fields k v fuel rest
  rw [parseJValue.eq_def]
  cases fields with
  | nil =>
    simp only [marshalStrObj, List.map_cons, List.map_nil, strIntercalate,
      String.data_append, renderJsonStr_data, List.cons_append, List.append_assoc,
      List.singleton_append, List.nil_append, List.append_nil, List.length_nil,
      List.length_cons, Nat.mul_zero, Nat.zero_add, show ("\x7b").data = ['\x7b'] from rfl,
      show ("\x7d").data = ['\x7d'] from rfl] at hmem ⊢
    simp [isSpaceChar, hmem]
  | cons f2 tl =>
    simp only [marshalStrObj, List.map_cons, strIntercalate_cons2,
      String.data_append, renderJsonStr_data, List.cons_append, List.append_assoc,
      List.singleton_append, List.nil_append, List.append_nil, List.length_nil,
      List.length_cons, Nat.mul_zero, Nat.zero_add, show ("\x7b").data = ['\x7b'] from rfl,
      show ("\x7d").data = ['\x7d'] from rfl] at hmem ⊢
    simp [isSpaceChar, hmem]

/-- Helper: one rendered member whose value is a string-valued object
parses back. -/
theorem parseJMembers_singleObj (fuel : Nat) (k k2 v2 : String)
    (fields2 : List (String × String)) (rest : List Char) :
    parseJMembers (2 * fields2.length + fuel + 4)
        ((renderJsonStr k).data ++ ':' :: ((marshalStrObj ((k2, v2) :: fields2)).data ++
          '}' :: rest)) =
      .ok ([(k, Json.obj (((k2, v2) :: fields2).map (fun q => (q.1, Json.str q.2))))],
        rest) := by
  have hval := parseJValue_strObj k2 v2 fields2 fuel ('}' :: rest)
  rw [parseJMembers.eq_def]
  simp only [renderJsonStr_data, List.cons_append, List.append_assoc, List.nil_append,
    List.append_nil] at hval ⊢
  simp [isSpaceChar, parseJString_escape, hval]

/-- Helper: an object wrapping one object-valued member parses back. -/
theorem parseJValue_objOfSingleObj (fuel : Nat) (k k2 v2 : String)
    (fields2 : List (String × String)) (rest : List Char) :
    parseJValue (2 * fields2.length + fuel + 5)
        ('{' :: ((renderJsonStr k).data ++ ':' :: ((marshalStrObj ((k2, v2) :: fields2)).data ++
          '}' :: rest))) =
      .ok (Json.obj [(k, Json.obj (((k2, v2) :: fields2).map (fun q => (q.1, Json.str q.2))))],
        rest) := by
  have hmem := parseJMembers_singleObj fuel k k2 v2 fields2 rest
  rw [parseJValue.eq_def]
  simp only [renderJsonStr_data, List.cons_append, List.append_assoc, List.nil_append,
    List.append_nil] at hmem ⊢
  simp [isSpaceChar, hmem]

/-- Helper: the literal key `auths` parses as itself. -/
theorem parseJString_auths (rest : List Char) :
    parseJString ('a' :: 'u' :: 't' :: 'h' :: 's' :: '"' :: rest) =
      .ok ("auths".data, rest) := by
  have h1 : "auths".data.flatMap escapeJsonChar ++ '"' :: rest =
      'a' :: 'u' :: 't' :: 'h' :: 's' :: '"' :: rest := by
    simp [escapeJsonChar]
  rw [← h1]
  exact parseJString_escape "auths".data rest

/-- Helper: the whole rendered docker-config document parses back to its
JSON tree, consuming the entire input. -/
theorem parseJValue_dockerDoc (s k2 v2 : String) (fields2 : List (String × String))
    (fuel : Nat) :
    parseJValue (2 * fields2.length + fuel + 7)
        (("\x7b\"auths\":\x7b" ++ (renderJsonStr s ++ ":" ++
          marshalStrObj ((k2, v2) :: fields2)) ++ "\x7d\x7d").data) =
      .ok (Json.obj [("auths", Json.obj [(s,
        Json.obj (((k2, v2) :: fields2).map (fun q => (q.1, Json.str q.2))))])], []) := by
  have hinner := parseJValue_objOfSingleObj fuel s k2 v2 fields2 ['\x7d']
  simp only [String.data_append, renderJsonStr_data, List.cons_append, List.append_assoc,
    List.nil_append, List.append_nil] at hinner
  have hmem : parseJMembers (2 * fields2.length + fuel + 6)
      ('"' :: 'a' :: 'u' :: 't' :: 'h' :: 's' :: '"' :: ':' :: '\x7b' :: '"' ::
        (s.data.flatMap escapeJsonChar ++ '"' :: ':' ::
          ((marshalStrObj ((k2, v2) :: fields2)).data ++ ['\x7d', '\x7d']))) =
      .ok ([("auths", Json.obj [(s,
        Json.obj (((k2, v2) :: fields2).map (fun q => (q.1, Json.str q.2))))])], []) := by
    rw [parseJMembers.eq_def]
    simp [isSpaceChar, parseJString_auths, hinner]
  rw [parseJValue.eq_def]
  simp only [String.data_append, renderJsonStr_data, List.cons_append, List.append_assoc,
    List.nil_append, List.append_nil,
    show ("\x7b\"auths\":\x7b").data =
      ['\x7b', '"', 'a', 'u', 't', 'h', 's', '"', ':', '\x7b'] from rfl,
    show ("\x7d\x7d").data = ['\x7d', '\x7d'] from rfl]
  simp [isSpaceChar, hmem]

/-- Helper: `json.Unmarshal`-level parse of `json.Marshal` output for a
single-registry `DockerConfig`: the document round-trips to its tree. -/
theorem parseJsonText_dockerMarshal (s : String) (auth : DockerAuth) :
    parseJsonText (DockerConfig.marshal ⟨[(s, auth)]⟩) =
      .ok (Json.obj [("auths", Json.obj [(s,
        Json.obj ((dockerAuthFields auth).map (fun q => (q.1, Json.str q.2))))])]) := by
  have hfields : dockerAuthFields auth = ("username", auth.Username) ::
      (("password", auth.Password) ::
        ((if auth.Email = "" then [] else [("email", auth.Email)]) ++
          [("auth", auth.Auth)])) := by
    simp [dockerAuthFields]
  have hmarshal : DockerConfig.marshal ⟨[(s, auth)]⟩ =
      "\x7b\"auths\":\x7b" ++ (renderJsonStr s ++ ":" ++
        marshalStrObj (("username", auth.Username) ::
          (("password", auth.Password) ::
            ((if auth.Email = "" then [] else [("email", auth.Email)]) ++
              [("auth", auth.Auth)])))) ++ "\x7d\x7d" := by
    simp [DockerConfig.marshal, sortPairsByKey, insortPair, strIntercalate,
      DockerAuth.marshal, hfields]
  rw [hmarshal]
  unfold parseJsonText
  have hlen : 12 ≤ ("\x7b\"auths\":\x7b" ++ (renderJsonStr s ++ ":" ++
      marshalStrObj (("username", auth.Username) ::
        (("password", auth.Password) ::
          ((if auth.Email = "" then [] else [("email", auth.Email)]) ++
            [("auth", auth.Auth)])))) ++ "\x7d\x7d").data.length := by
    simp only [String.data_append, List.length_append,
      show ("\x7b\"auths\":\x7b").data.length = 10 from rfl,
      show (":").data.length = 1 from rfl,
      show ("\x7d\x7d").data.length = 2 from rfl]
    omega
  have htllen : (("password", auth.Password) ::
      ((if auth.Email = "" then [] else [("email", auth.Email)]) ++
        [("auth", auth.Auth)])).length ≤ 3 := by
    by_cases h : auth.Email = "" <;> simp [h]
  obtain ⟨m, hm⟩ : ∃ m, ("\x7b\"auths\":\x7b" ++ (renderJsonStr s ++ ":" ++
      marshalStrObj (("username", auth.Username) ::
        (("password", auth.Password) ::
          ((if auth.Email = "" then [] else [("email", auth.Email)]) ++
            [("auth", auth.Auth)])))) ++ "\x7d\x7d").data.length + 1 =
      2 * (("password", auth.Password) ::
        ((if auth.Email = "" then [] else [("email", auth.Email)]) ++
          [("auth", auth.Auth)])).length + m + 7 :=
    ⟨("\x7b\"auths\":\x7b" ++ (renderJsonStr s ++ ":" ++
      marshalStrObj (("username", auth.Username) ::
        (("password", auth.Password) ::
          ((if auth.Email = "" then [] else [("email", auth.Email)]) ++
            [("auth", auth.Auth)])))) ++ "\x7d\x7d").data.length + 1 -
      (2 * (("password", auth.Password) ::
        ((if auth.Email = "" then [] else [("email", auth.Email)]) ++
          [("auth", auth.Auth)])).length + 7), by omega⟩
  rw [hm]
  rw [parseJValue_dockerDoc s "username" auth.Username _ m]
  simp [hfields]

/-- Helper: decoding the rendered auth object recovers the `DockerAuth`
(an omitted email decodes to the zero value `""`). -/
theorem decodeDockerAuth_fields (a : DockerAuth) :
    decodeDockerAuth (Json.obj ((dockerAuthFields a).map (fun q => (q.1, Json.str q.2)))) =
      .ok a := by
  obtain ⟨u, p, e, au⟩ := a
  by_cases h : e = "" <;>
    simp [dockerAuthFields, h, decodeDockerAuth, decodeStringField, objGet]

/-- Helper: decoding the full tree recovers the `DockerConfig`. -/
theorem decodeDockerConfig_tree (s : String) (a : DockerAuth) :
    decodeDockerConfig (Json.obj [("auths", Json.obj [(s,
        Json.obj ((dockerAuthFields a).map (fun q => (q.1, Json.str q.2))))])]) =
      .ok ⟨[(s, a)]⟩ := by
  simp [decodeDockerConfig, objGet, decodeAuthEntries, decodeAuthEntriesAux,
    decodeDockerAuth_fields, mapInsert]

/-- C4: for every valid docker-registry entry map (server, username and
password present and non-empty, email optional), building the wire
document and parsing it back reproduces the map exactly, except that an
empty `docker-email` normalizes to the key being absent.  The wire
document here is the actual serialized JSON text: the proof goes through
the serializer and the JSON text parser. -/
theorem docker_registry_roundtrip (s u p e : String)
    (hs : s ≠ "") (hu : u ≠ "") (hp : p ≠ "") :
    ∃ wire, BuildDockerConfigJSON
        [("docker-server", s), ("docker-username", u), ("docker-password", p),
          ("docker-email", e)] = .ok wire ∧
      ParseDockerConfigJSON wire =
        .ok ([("docker-server", s), ("docker-username", u), ("docker-password", p)] ++
          (if e = "" then [] else [("docker-email", e)])) := by
  have hbuild : buildDockerConfig
      [("docker-server", s), ("docker-username", u), ("docker-password", p),
        ("docker-email", e)] =
      .ok ⟨[(s, ⟨u, p, e, base64StdEncode (u ++ ":" ++ p)⟩)]⟩ := by
    simp [buildDockerConfig, mapGet, hs, hu, hp]
  refine ⟨DockerConfig.marshal ⟨[(s, ⟨u, p, e, base64StdEncode (u ++ ":" ++ p)⟩)]⟩, ?_, ?_⟩
  · unfold BuildDockerConfigJSON
    rw [hbuild]
  · unfold ParseDockerConfigJSON
    rw [parseJsonText_dockerMarshal s ⟨u, p, e, base64StdEncode (u ++ ":" ++ p)⟩]
    simp only [decodeDockerConfig_tree s ⟨u, p, e, base64StdEncode (u ++ ":" ++ p)⟩]
    by_cases he : e = "" <;> simp [parseDockerConfig, he]

/-- C4 witness: the concrete registry entry of the test suite round-trips
both with and without an email. -/
theorem docker_registry_roundtrip_witness :
    (∃ wire, BuildDockerConfigJSON
        [("docker-server", "https://ghcr.io"), ("docker-username", "testuser"),
          ("docker-password", "testpass"), ("docker-email", "test@example.com")] = .ok wire ∧
      ParseDockerConfigJSON wire =
        .ok ([("docker-server", "https://ghcr.io"), ("docker-username", "testuser"),
          ("docker-password", "testpass")] ++
          (if ("test@example.com" : String) = "" then []
            else [("docker-email", "test@example.com")]))) ∧
    (∃ wire, BuildDockerConfigJSON
        [("docker-server", "https://ghcr.io"), ("docker-username", "testuser"),
          ("docker-password", "testpass"), ("docker-email", "")] = .ok wire ∧
      ParseDockerConfigJSON wire =
        .ok ([("docker-server", "https://ghcr.io"), ("docker-username", "testuser"),
          ("docker-password", "testpass")] ++
          (if ("" : String) = "" then [] else [("docker-email", "")]))) :=
  ⟨docker_registry_roundtrip "https://ghcr.io" "testuser" "testpass" "test@example.com"
      (by decide) (by decide) (by decide),
    docker_registry_roundtrip "https://ghcr.io" "testuser" "testpass" ""
      (by decide) (by decide) (by decide)⟩
